import Mathlib

/-!
Verification of the MBES-lib ray-tracing engine (src/georeferencing/Raytracing.hpp).

The C++ `double` arithmetic is modelled over `ℝ` (so every algebraic identity
below is exact; `sqrt` of a negative argument is the Lean junk value `0` where
IEEE would produce NaN).  The two `while` loops of `rayTrace` and
`planarRayTrace` are modelled as well-founded recursion on the layer index, and
the single `throw` site (`soundSpeedGradient`) as an `Except` error that
carries both depths.  External collaborators (the sound-velocity-profile
accessors and the sonar-frame geometry) are out of scope of the repository
sources and are modelled from the spec where needed; the sensor-frame launch
vector construction and the two rotation matrices are abstracted into the
navigation-frame launch vector argument `launchVectorNav`.
-/

noncomputable section

/-- Ping observation: the accessors getTwoWayTravelTime, getSurfaceSoundSpeed
and getTransducerDepth consumed by the ray tracer (the two beam angles are
absorbed into the abstract navigation-frame launch vector). -/
structure Ping where
  twoWayTravelTime : ℝ
  surfaceSoundSpeed : ℝ
  transducerDepth : ℝ

/-- Sound velocity profile: ordered (depth, speed) samples, exposed through the
accessors used by Raytracing.hpp. -/
structure SoundVelocityProfile where
  depths : List ℝ
  speeds : List ℝ

/-- svp.getSize() -/
def SoundVelocityProfile.getSize (svp : SoundVelocityProfile) : ℕ :=
  svp.depths.length

/-- depths(i) of svp.getDepths() -/
def SoundVelocityProfile.depthAt (svp : SoundVelocityProfile) (i : ℕ) : ℝ :=
  svp.depths.getD i 0

/-- speeds(i) of svp.getSpeeds() -/
def SoundVelocityProfile.speedAt (svp : SoundVelocityProfile) (i : ℕ) : ℝ :=
  svp.speeds.getD i 0

/-- Modelled from the spec: SoundVelocityProfile::getSoundSpeedGradient is not
part of the repository sources; the spec defines the precomputed per-interval
gradient as (speed[i+1]-speed[i])/(depth[i+1]-depth[i]).  Note that over ℝ a
zero depth difference yields the junk value 0 (C++ yields ±inf or NaN): in
either semantics no error is raised by the profile. -/
def SoundVelocityProfile.gradientAt (svp : SoundVelocityProfile) (i : ℕ) : ℝ :=
  (svp.speedAt (i + 1) - svp.speedAt i) / (svp.depthAt (i + 1) - svp.depthAt i)

/-- Modelled from the spec: the depth-to-layer-index lookup of
SoundVelocityProfile (not part of the repository sources) returns the index of
the first sample at or below the queried depth, and an out-of-range sentinel
(the sample count) when the query is deeper than every sample. -/
def firstAtOrBelow (d : ℝ) : List ℝ → ℕ
  | [] => 0
  | z :: zs => if d ≤ z then 0 else firstAtOrBelow d zs + 1

/-- svp.getLayerIndexForDepth(d) -/
def SoundVelocityProfile.getLayerIndexForDepth (svp : SoundVelocityProfile) (d : ℝ) : ℕ :=
  firstAtOrBelow d svp.depths

/-- gradient inferior to this epsilon is considered 0 -/
def gradientEpsilon : ℝ := 0.000001

/-- Output triple of the per-layer propagation formulas. -/
structure RayStep where
  deltaZ : ℝ
  deltaR : ℝ
  deltaTravelTime : ℝ

/-- Raytracing::constantCelerityRayTracing -/
def constantCelerityRayTracing (z0 z1 c snellConstant : ℝ) : RayStep :=
  let cosBn := snellConstant * c
  let sinBn := Real.sqrt (1 - cosBn ^ 2)
  let deltaZ := z1 - z0
  let deltaTravelTime := deltaZ / (c * sinBn)
  let deltaR := cosBn * deltaTravelTime * c
  ⟨deltaZ, deltaR, deltaTravelTime⟩

/-- Raytracing::lastLayerPropagation; returns (deltaZ, deltaR). -/
def lastLayerPropagation (lastLayerTraveTime c_lastLayer snellConstant : ℝ) : ℝ × ℝ :=
  let cosBn := snellConstant * c_lastLayer
  let sinBn := Real.sqrt (1 - cosBn ^ 2)
  (c_lastLayer * lastLayerTraveTime * sinBn, c_lastLayer * lastLayerTraveTime * cosBn)

/-- Raytracing::constantGradientRayTracing -/
def constantGradientRayTracing (c0 c1 gradient snellConstant : ℝ) : RayStep :=
  let cosBnm1 := snellConstant * c0
  let cosBn := snellConstant * c1
  let sinBnm1 := Real.sqrt (1 - cosBnm1 ^ 2)
  let sinBn := Real.sqrt (1 - cosBn ^ 2)
  let radiusOfCurvature := 1 / (snellConstant * gradient)
  let deltaTravelTime := |(1 / |gradient|) * Real.log ((c1 / c0) * ((1 + sinBnm1) / (1 + sinBn)))|
  ⟨radiusOfCurvature * (cosBn - cosBnm1), radiusOfCurvature * (sinBnm1 - sinBn), deltaTravelTime⟩

/-- The domain error thrown by Raytracing::soundSpeedGradient, carrying both
offending depths. -/
inductive RTError where
  | sameDepthGradient (z0 z1 : ℝ)

/-- Raytracing::soundSpeedGradient: throws when the two samples share a depth. -/
def soundSpeedGradient (z0 c0 z1 c1 : ℝ) : Except RTError ℝ :=
  if z1 = z0 then Except.error (RTError.sameDepthGradient z0 z1)
  else Except.ok ((c1 - c0) / (z1 - z0))

/-- Output of Raytracing::launchVectorParameters. -/
structure LaunchParams where
  sinAz : ℝ
  cosAz : ℝ
  beta0 : ℝ

/-- Raytracing::launchVectorParameters, lines 77-82: azimuth decomposition and
grazing angle of the navigation-frame launch vector.  The construction of the
sensor-frame unit vector (CoordinateTransform::sonar2cartesian, external to the
repository sources) and its rotation by the boresight and attitude matrices
(Eigen) are abstracted into the argument `launchVectorNav`. -/
def launchVectorParameters (launchVectorNav : ℝ × ℝ × ℝ) : LaunchParams :=
  let vNorm := Real.sqrt (launchVectorNav.1 ^ 2 + launchVectorNav.2.1 ^ 2)
  ⟨if vNorm > 0 then launchVectorNav.1 / vNorm else 0,
   if vNorm > 0 then launchVectorNav.2.1 / vNorm else 0,
   Real.arcsin launchVectorNav.2.2⟩

/-- Body of the layer-walk loop (lines 161-183 and 306-328): choose the
constant-celerity or constant-gradient formula for full layer i by the epsilon
rule. -/
def layerStep (svp : SoundVelocityProfile) (snellConstant : ℝ) (i : ℕ) : RayStep :=
  if |svp.gradientAt i| < gradientEpsilon then
    constantCelerityRayTracing (svp.depthAt i) (svp.depthAt (i + 1)) (svp.speedAt i) snellConstant
  else
    constantGradientRayTracing (svp.speedAt i) (svp.speedAt (i + 1)) (svp.gradientAt i) snellConstant

/-- The mutable accumulator state of one trace: cumulative committed time,
range and depth, the last computed (possibly uncommitted) layer time, and the
current layer index. -/
structure WalkState where
  cumTime : ℝ
  cumX : ℝ
  cumZ : ℝ
  curTime : ℝ
  idx : ℕ

/-- Accumulator state of the diagnostic variant: the numeric state plus the
appended per-layer segments and travel times. -/
structure PlanarState where
  walk : WalkState
  rays : List (ℝ × ℝ)
  times : List ℝ

/-- The layer-walk while loop of rayTrace (lines 158-195). -/
def rayTraceLoop (svp : SoundVelocityProfile) (snellConstant oneWayTravelTime : ℝ)
    (st : WalkState) : WalkState :=
  if h : st.cumTime + st.curTime ≤ oneWayTravelTime ∧ st.idx < svp.getSize - 1 then
    if st.cumTime + (layerStep svp snellConstant st.idx).deltaTravelTime ≤ oneWayTravelTime then
      rayTraceLoop svp snellConstant oneWayTravelTime
        ⟨st.cumTime + (layerStep svp snellConstant st.idx).deltaTravelTime,
         st.cumX + (layerStep svp snellConstant st.idx).deltaR,
         st.cumZ + (layerStep svp snellConstant st.idx).deltaZ,
         (layerStep svp snellConstant st.idx).deltaTravelTime,
         st.idx + 1⟩
    else st
  else st
termination_by svp.getSize - 1 - st.idx
decreasing_by
  obtain ⟨h1, h2⟩ := h
  omega

/-- The layer-walk while loop of planarRayTrace (lines 303-346): identical to
`rayTraceLoop` except that every committed segment and its travel time are
appended. -/
def planarLoop (svp : SoundVelocityProfile) (snellConstant oneWayTravelTime : ℝ)
    (ps : PlanarState) : PlanarState :=
  if h : ps.walk.cumTime + ps.walk.curTime ≤ oneWayTravelTime ∧ ps.walk.idx < svp.getSize - 1 then
    if ps.walk.cumTime + (layerStep svp snellConstant ps.walk.idx).deltaTravelTime ≤ oneWayTravelTime then
      planarLoop svp snellConstant oneWayTravelTime
        ⟨⟨ps.walk.cumTime + (layerStep svp snellConstant ps.walk.idx).deltaTravelTime,
          ps.walk.cumX + (layerStep svp snellConstant ps.walk.idx).deltaR,
          ps.walk.cumZ + (layerStep svp snellConstant ps.walk.idx).deltaZ,
          (layerStep svp snellConstant ps.walk.idx).deltaTravelTime,
          ps.walk.idx + 1⟩,
         ps.rays ++ [((layerStep svp snellConstant ps.walk.idx).deltaR,
                      (layerStep svp snellConstant ps.walk.idx).deltaZ)],
         ps.times ++ [(layerStep svp snellConstant ps.walk.idx).deltaTravelTime]⟩
    else ps
  else ps
termination_by svp.getSize - 1 - ps.walk.idx
decreasing_by
  obtain ⟨h1, h2⟩ := h
  omega

/-- The transducer-layer step (lines 121-143 and 260-282): gradient between the
transducer and the first sample at or below it, then the epsilon rule. -/
def transducerLayerStep (ping : Ping) (svp : SoundVelocityProfile) (snellConstant : ℝ)
    (svpCutoffIndex : ℕ) : Except RTError RayStep :=
  Except.map
    (fun gradientTransducerSvp =>
      if |gradientTransducerSvp| < gradientEpsilon then
        constantCelerityRayTracing ping.transducerDepth (svp.depthAt svpCutoffIndex)
          ping.surfaceSoundSpeed snellConstant
      else
        constantGradientRayTracing ping.surfaceSoundSpeed (svp.speedAt svpCutoffIndex)
          gradientTransducerSvp snellConstant)
    (soundSpeedGradient ping.transducerDepth ping.surfaceSoundSpeed
      (svp.depthAt svpCutoffIndex) (svp.speedAt svpCutoffIndex))

/-- The pre-loop state of rayTrace (lines 118-155): if the transducer is
within svp bounds, compute and conditionally commit the transducer-layer step;
otherwise start from the zero state.  The commit comparison is the one of line
146. -/
def rayTraceFirstState (ping : Ping) (svp : SoundVelocityProfile)
    (snellConstant oneWayTravelTime : ℝ) (svpCutoffIndex : ℕ) : Except RTError WalkState :=
  if svpCutoffIndex < svp.getSize then
    Except.map
      (fun s =>
        if 0 + s.deltaTravelTime ≤ oneWayTravelTime then
          ⟨0 + s.deltaTravelTime, 0 + s.deltaR, 0 + s.deltaZ, s.deltaTravelTime, svpCutoffIndex⟩
        else ⟨0, 0, 0, s.deltaTravelTime, svpCutoffIndex⟩)
      (transducerLayerStep ping svp snellConstant svpCutoffIndex)
  else Except.ok ⟨0, 0, 0, 0, svpCutoffIndex⟩

/-- Lines 197-219 of rayTrace: run the layer-walk loop, then the last-layer
propagation, and re-orient the planar result in the navigation frame. -/
def rayTraceFinalize (ping : Ping) (svp : SoundVelocityProfile)
    (snellConstant oneWayTravelTime : ℝ) (svpCutoffIndex : ℕ) (lp : LaunchParams)
    (st : WalkState) : ℝ × ℝ × ℝ :=
  let w := rayTraceLoop svp snellConstant oneWayTravelTime st
  let c_lastLayer :=
    if svpCutoffIndex < svp.getSize then svp.speedAt w.idx else ping.surfaceSoundSpeed
  let d := lastLayerPropagation (oneWayTravelTime - w.cumTime) c_lastLayer snellConstant
  ((w.cumX + d.2) * lp.sinAz, (w.cumX + d.2) * lp.cosAz, w.cumZ + d.1)

/-- Raytracing::rayTrace: the 3D variant.  Returns the navigation-frame
displacement, or the domain error of soundSpeedGradient. -/
def rayTrace (launchVectorNav : ℝ × ℝ × ℝ) (ping : Ping) (svp : SoundVelocityProfile) :
    Except RTError (ℝ × ℝ × ℝ) :=
  let lp := launchVectorParameters launchVectorNav
  let oneWayTravelTime := ping.twoWayTravelTime / 2
  let snellConstant := Real.cos lp.beta0 / ping.surfaceSoundSpeed
  let svpCutoffIndex := svp.getLayerIndexForDepth ping.transducerDepth
  Except.map (rayTraceFinalize ping svp snellConstant oneWayTravelTime svpCutoffIndex lp)
    (rayTraceFirstState ping svp snellConstant oneWayTravelTime svpCutoffIndex)

/-- The pre-loop state of planarRayTrace (lines 257-300): as
`rayTraceFirstState`, and a committed transducer step is also appended to the
caller vectors (lines 291-295). -/
def planarFirstState (ping : Ping) (svp : SoundVelocityProfile)
    (snellConstant oneWayTravelTime : ℝ) (svpCutoffIndex : ℕ)
    (layerRays : List (ℝ × ℝ)) (layerTravelTimes : List ℝ) : Except RTError PlanarState :=
  if svpCutoffIndex < svp.getSize then
    Except.map
      (fun s =>
        if 0 + s.deltaTravelTime ≤ oneWayTravelTime then
          ⟨⟨0 + s.deltaTravelTime, 0 + s.deltaR, 0 + s.deltaZ, s.deltaTravelTime, svpCutoffIndex⟩,
           layerRays ++ [(s.deltaR, s.deltaZ)], layerTravelTimes ++ [s.deltaTravelTime]⟩
        else ⟨⟨0, 0, 0, s.deltaTravelTime, svpCutoffIndex⟩, layerRays, layerTravelTimes⟩)
      (transducerLayerStep ping svp snellConstant svpCutoffIndex)
  else Except.ok ⟨⟨0, 0, 0, 0, svpCutoffIndex⟩, layerRays, layerTravelTimes⟩

/-- Lines 348-373 of planarRayTrace: run the layer-walk loop, then the
last-layer propagation; the final segment and its remaining time are always
appended, and the planar aggregate is returned directly. -/
def planarFinalize (ping : Ping) (svp : SoundVelocityProfile)
    (snellConstant oneWayTravelTime : ℝ) (svpCutoffIndex : ℕ)
    (ps : PlanarState) : (ℝ × ℝ) × List (ℝ × ℝ) × List ℝ :=
  let w := planarLoop svp snellConstant oneWayTravelTime ps
  let c_lastLayer :=
    if svpCutoffIndex < svp.getSize then svp.speedAt w.walk.idx else ping.surfaceSoundSpeed
  let lastLayerTraveTime := oneWayTravelTime - w.walk.cumTime
  let d := lastLayerPropagation lastLayerTraveTime c_lastLayer snellConstant
  ((w.walk.cumX + d.2, w.walk.cumZ + d.1), w.rays ++ [(d.2, d.1)], w.times ++ [lastLayerTraveTime])

/-- Raytracing::planarRayTrace: the 2D diagnostic variant.  Takes the caller
layerRays and layerTravelTimes vectors and returns the aggregate (range, depth)
together with the extended vectors. -/
def planarRayTrace (launchVectorNav : ℝ × ℝ × ℝ) (ping : Ping) (svp : SoundVelocityProfile)
    (layerRays : List (ℝ × ℝ)) (layerTravelTimes : List ℝ) :
    Except RTError ((ℝ × ℝ) × List (ℝ × ℝ) × List ℝ) :=
  let lp := launchVectorParameters launchVectorNav
  let oneWayTravelTime := ping.twoWayTravelTime / 2
  let snellConstant := Real.cos lp.beta0 / ping.surfaceSoundSpeed
  let svpCutoffIndex := svp.getLayerIndexForDepth ping.transducerDepth
  Except.map (planarFinalize ping svp snellConstant oneWayTravelTime svpCutoffIndex)
    (planarFirstState ping svp snellConstant oneWayTravelTime svpCutoffIndex
      layerRays layerTravelTimes)

/-- Fuel-indexed version of the rayTrace layer-walk loop, used to express that
the loop terminates within a bounded number of iterations: each consumed unit
of fuel is one committed iteration; `none` means the fuel ran out with the
guard still true. -/
def rayTraceLoopFuel (svp : SoundVelocityProfile) (snellConstant oneWayTravelTime : ℝ) :
    ℕ → WalkState → Option WalkState
  | fuel, st =>
    if st.cumTime + st.curTime ≤ oneWayTravelTime ∧ st.idx < svp.getSize - 1 then
      match fuel with
      | 0 => none
      | f + 1 =>
        if st.cumTime + (layerStep svp snellConstant st.idx).deltaTravelTime ≤ oneWayTravelTime then
          rayTraceLoopFuel svp snellConstant oneWayTravelTime f
            ⟨st.cumTime + (layerStep svp snellConstant st.idx).deltaTravelTime,
             st.cumX + (layerStep svp snellConstant st.idx).deltaR,
             st.cumZ + (layerStep svp snellConstant st.idx).deltaZ,
             (layerStep svp snellConstant st.idx).deltaTravelTime,
             st.idx + 1⟩
        else some st
    else some st

/-- Fuel-indexed version of the planarRayTrace layer-walk loop. -/
def planarLoopFuel (svp : SoundVelocityProfile) (snellConstant oneWayTravelTime : ℝ) :
    ℕ → PlanarState → Option PlanarState
  | fuel, ps =>
    if ps.walk.cumTime + ps.walk.curTime ≤ oneWayTravelTime ∧ ps.walk.idx < svp.getSize - 1 then
      match fuel with
      | 0 => none
      | f + 1 =>
        if ps.walk.cumTime + (layerStep svp snellConstant ps.walk.idx).deltaTravelTime ≤ oneWayTravelTime then
          planarLoopFuel svp snellConstant oneWayTravelTime f
            ⟨⟨ps.walk.cumTime + (layerStep svp snellConstant ps.walk.idx).deltaTravelTime,
              ps.walk.cumX + (layerStep svp snellConstant ps.walk.idx).deltaR,
              ps.walk.cumZ + (layerStep svp snellConstant ps.walk.idx).deltaZ,
              (layerStep svp snellConstant ps.walk.idx).deltaTravelTime,
              ps.walk.idx + 1⟩,
             ps.rays ++ [((layerStep svp snellConstant ps.walk.idx).deltaR,
                          (layerStep svp snellConstant ps.walk.idx).deltaZ)],
             ps.times ++ [(layerStep svp snellConstant ps.walk.idx).deltaTravelTime]⟩
        else some ps
    else some ps

end

noncomputable section

/-! ### Basic lemmas about the loops -/

/-- Evaluate a square root at a perfect square. -/
lemma sqrt_eval {a b : ℝ} (hb : 0 ≤ b) (h : a = b ^ 2) : Real.sqrt a = b := by
  rw [h, Real.sqrt_sq hb]

lemma rayTraceLoop_exit (svp : SoundVelocityProfile) (p t : ℝ) (st : WalkState)
    (h : ¬(st.cumTime + st.curTime ≤ t ∧ st.idx < svp.getSize - 1)) :
    rayTraceLoop svp p t st = st := by
  rw [rayTraceLoop, dif_neg h]

lemma rayTraceLoop_commit (svp : SoundVelocityProfile) (p t : ℝ) (st : WalkState)
    (h : st.cumTime + st.curTime ≤ t ∧ st.idx < svp.getSize - 1)
    (hc : st.cumTime + (layerStep svp p st.idx).deltaTravelTime ≤ t) :
    rayTraceLoop svp p t st =
      rayTraceLoop svp p t
        ⟨st.cumTime + (layerStep svp p st.idx).deltaTravelTime,
         st.cumX + (layerStep svp p st.idx).deltaR,
         st.cumZ + (layerStep svp p st.idx).deltaZ,
         (layerStep svp p st.idx).deltaTravelTime,
         st.idx + 1⟩ := by
  conv_lhs => rw [rayTraceLoop]
  rw [dif_pos h, if_pos hc]

lemma rayTraceLoop_break (svp : SoundVelocityProfile) (p t : ℝ) (st : WalkState)
    (h : st.cumTime + st.curTime ≤ t ∧ st.idx < svp.getSize - 1)
    (hc : ¬ st.cumTime + (layerStep svp p st.idx).deltaTravelTime ≤ t) :
    rayTraceLoop svp p t st = st := by
  rw [rayTraceLoop, dif_pos h, if_neg hc]

lemma planarLoop_exit (svp : SoundVelocityProfile) (p t : ℝ) (ps : PlanarState)
    (h : ¬(ps.walk.cumTime + ps.walk.curTime ≤ t ∧ ps.walk.idx < svp.getSize - 1)) :
    planarLoop svp p t ps = ps := by
  rw [planarLoop, dif_neg h]

lemma planarLoop_commit (svp : SoundVelocityProfile) (p t : ℝ) (ps : PlanarState)
    (h : ps.walk.cumTime + ps.walk.curTime ≤ t ∧ ps.walk.idx < svp.getSize - 1)
    (hc : ps.walk.cumTime + (layerStep svp p ps.walk.idx).deltaTravelTime ≤ t) :
    planarLoop svp p t ps =
      planarLoop svp p t
        ⟨⟨ps.walk.cumTime + (layerStep svp p ps.walk.idx).deltaTravelTime,
          ps.walk.cumX + (layerStep svp p ps.walk.idx).deltaR,
          ps.walk.cumZ + (layerStep svp p ps.walk.idx).deltaZ,
          (layerStep svp p ps.walk.idx).deltaTravelTime,
          ps.walk.idx + 1⟩,
         ps.rays ++ [((layerStep svp p ps.walk.idx).deltaR, (layerStep svp p ps.walk.idx).deltaZ)],
         ps.times ++ [(layerStep svp p ps.walk.idx).deltaTravelTime]⟩ := by
  conv_lhs => rw [planarLoop]
  rw [dif_pos h, if_pos hc]

lemma planarLoop_break (svp : SoundVelocityProfile) (p t : ℝ) (ps : PlanarState)
    (h : ps.walk.cumTime + ps.walk.curTime ≤ t ∧ ps.walk.idx < svp.getSize - 1)
    (hc : ¬ ps.walk.cumTime + (layerStep svp p ps.walk.idx).deltaTravelTime ≤ t) :
    planarLoop svp p t ps = ps := by
  rw [planarLoop, dif_pos h, if_neg hc]

/-- The numeric components of the diagnostic loop agree with the 3D loop. -/
lemma planarLoop_walk_aux (svp : SoundVelocityProfile) (p t : ℝ) :
    ∀ n (ps : PlanarState), svp.getSize - 1 - ps.walk.idx ≤ n →
      (planarLoop svp p t ps).walk = rayTraceLoop svp p t ps.walk := by
  intro n
  induction n with
  | zero =>
    intro ps h
    rw [planarLoop_exit _ _ _ _ (fun hg => absurd hg.2 (by omega)),
        rayTraceLoop_exit _ _ _ _ (fun hg => absurd hg.2 (by omega))]
  | succ n ih =>
    intro ps h
    by_cases hg : ps.walk.cumTime + ps.walk.curTime ≤ t ∧ ps.walk.idx < svp.getSize - 1
    · by_cases hc : ps.walk.cumTime + (layerStep svp p ps.walk.idx).deltaTravelTime ≤ t
      · rw [planarLoop_commit _ _ _ _ hg hc, rayTraceLoop_commit _ _ _ _ hg hc]
        exact ih _ (by simp only []; omega)
      · rw [planarLoop_break _ _ _ _ hg hc, rayTraceLoop_break _ _ _ _ hg hc]
    · rw [planarLoop_exit _ _ _ _ hg, rayTraceLoop_exit _ _ _ _ hg]

lemma planarLoop_walk (svp : SoundVelocityProfile) (p t : ℝ) (ps : PlanarState) :
    (planarLoop svp p t ps).walk = rayTraceLoop svp p t ps.walk :=
  planarLoop_walk_aux svp p t _ ps le_rfl

/-- List bookkeeping of the diagnostic loop: rays and times grow in lockstep,
times never shrink, and the sum of the appended times tracks the cumulative
committed time exactly. -/
lemma planarLoop_lists_aux (svp : SoundVelocityProfile) (p t : ℝ) :
    ∀ n (ps : PlanarState), svp.getSize - 1 - ps.walk.idx ≤ n →
      (planarLoop svp p t ps).rays.length + ps.times.length
          = (planarLoop svp p t ps).times.length + ps.rays.length
        ∧ ps.times.length ≤ (planarLoop svp p t ps).times.length
        ∧ (planarLoop svp p t ps).times.sum - (planarLoop svp p t ps).walk.cumTime
          = ps.times.sum - ps.walk.cumTime := by
  intro n
  induction n with
  | zero =>
    intro ps h
    rw [planarLoop_exit _ _ _ _ (fun hg => absurd hg.2 (by omega))]
    exact ⟨by omega, le_rfl, rfl⟩
  | succ n ih =>
    intro ps h
    by_cases hg : ps.walk.cumTime + ps.walk.curTime ≤ t ∧ ps.walk.idx < svp.getSize - 1
    · by_cases hc : ps.walk.cumTime + (layerStep svp p ps.walk.idx).deltaTravelTime ≤ t
      · rw [planarLoop_commit _ _ _ _ hg hc]
        obtain ⟨h1, h2, h3⟩ :=
          ih ⟨⟨ps.walk.cumTime + (layerStep svp p ps.walk.idx).deltaTravelTime,
               ps.walk.cumX + (layerStep svp p ps.walk.idx).deltaR,
               ps.walk.cumZ + (layerStep svp p ps.walk.idx).deltaZ,
               (layerStep svp p ps.walk.idx).deltaTravelTime,
               ps.walk.idx + 1⟩,
              ps.rays ++ [((layerStep svp p ps.walk.idx).deltaR,
                           (layerStep svp p ps.walk.idx).deltaZ)],
              ps.times ++ [(layerStep svp p ps.walk.idx).deltaTravelTime]⟩
            (by show svp.getSize - 1 - (ps.walk.idx + 1) ≤ n; omega)
        dsimp only at h1 h2 h3
        simp only [List.length_append, List.length_cons, List.length_nil, List.sum_append,
          List.sum_cons, List.sum_nil] at h1 h2 h3 ⊢
        refine ⟨by omega, by omega, ?_⟩
        rw [h3]
        ring
      · rw [planarLoop_break _ _ _ _ hg hc]
        exact ⟨by omega, le_rfl, rfl⟩
    · rw [planarLoop_exit _ _ _ _ hg]
      exact ⟨by omega, le_rfl, rfl⟩

lemma planarLoop_lists (svp : SoundVelocityProfile) (p t : ℝ) (ps : PlanarState) :
    (planarLoop svp p t ps).rays.length + ps.times.length
        = (planarLoop svp p t ps).times.length + ps.rays.length
      ∧ ps.times.length ≤ (planarLoop svp p t ps).times.length
      ∧ (planarLoop svp p t ps).times.sum - (planarLoop svp p t ps).walk.cumTime
        = ps.times.sum - ps.walk.cumTime :=
  planarLoop_lists_aux svp p t _ ps le_rfl

/-- The loop never moves the layer index past getSize - 1, and never backwards. -/
lemma rayTraceLoop_idx_aux (svp : SoundVelocityProfile) (p t : ℝ) :
    ∀ n (st : WalkState), svp.getSize - 1 - st.idx ≤ n →
      (rayTraceLoop svp p t st).idx ≤ max st.idx (svp.getSize - 1)
        ∧ st.idx ≤ (rayTraceLoop svp p t st).idx := by
  intro n
  induction n with
  | zero =>
    intro st h
    rw [rayTraceLoop_exit _ _ _ _ (fun hg => absurd hg.2 (by omega))]
    omega
  | succ n ih =>
    intro st h
    by_cases hg : st.cumTime + st.curTime ≤ t ∧ st.idx < svp.getSize - 1
    · by_cases hc : st.cumTime + (layerStep svp p st.idx).deltaTravelTime ≤ t
      · rw [rayTraceLoop_commit _ _ _ _ hg hc]
        obtain ⟨h1, h2⟩ :=
          ih ⟨st.cumTime + (layerStep svp p st.idx).deltaTravelTime,
              st.cumX + (layerStep svp p st.idx).deltaR,
              st.cumZ + (layerStep svp p st.idx).deltaZ,
              (layerStep svp p st.idx).deltaTravelTime,
              st.idx + 1⟩
            (by show svp.getSize - 1 - (st.idx + 1) ≤ n; omega)
        dsimp only at h1 h2
        obtain ⟨hg1, hg2⟩ := hg
        omega
      · rw [rayTraceLoop_break _ _ _ _ hg hc]
        omega
    · rw [rayTraceLoop_exit _ _ _ _ hg]
      omega

lemma rayTraceLoop_idx (svp : SoundVelocityProfile) (p t : ℝ) (st : WalkState) :
    (rayTraceLoop svp p t st).idx ≤ max st.idx (svp.getSize - 1)
      ∧ st.idx ≤ (rayTraceLoop svp p t st).idx :=
  rayTraceLoop_idx_aux svp p t _ st le_rfl


/-! ### Error characterization -/

lemma transducerLayerStep_error_iff (ping : Ping) (svp : SoundVelocityProfile) (p : ℝ)
    (cutoff : ℕ) (e : RTError) :
    transducerLayerStep ping svp p cutoff = Except.error e ↔
      svp.depthAt cutoff = ping.transducerDepth
        ∧ e = RTError.sameDepthGradient ping.transducerDepth (svp.depthAt cutoff) := by
  unfold transducerLayerStep soundSpeedGradient
  by_cases h : svp.depthAt cutoff = ping.transducerDepth
  · simp [h, Except.map, eq_comm]
  · simp [h, Except.map]

lemma transducerLayerStep_ok_of_ne (ping : Ping) (svp : SoundVelocityProfile) (p : ℝ)
    (cutoff : ℕ) (h : svp.depthAt cutoff ≠ ping.transducerDepth) :
    transducerLayerStep ping svp p cutoff =
      Except.ok
        (if |(svp.speedAt cutoff - ping.surfaceSoundSpeed)
              / (svp.depthAt cutoff - ping.transducerDepth)| < gradientEpsilon then
          constantCelerityRayTracing ping.transducerDepth (svp.depthAt cutoff)
            ping.surfaceSoundSpeed p
        else
          constantGradientRayTracing ping.surfaceSoundSpeed (svp.speedAt cutoff)
            ((svp.speedAt cutoff - ping.surfaceSoundSpeed)
              / (svp.depthAt cutoff - ping.transducerDepth)) p) := by
  unfold transducerLayerStep soundSpeedGradient
  rw [if_neg h]
  rfl

/-- rayTrace raises an error exactly when the transducer sits within the
profile bounds and the first at-or-below sample shares its depth with the
transducer; the error carries both depths. -/
lemma rayTrace_error_iff (v : ℝ × ℝ × ℝ) (ping : Ping) (svp : SoundVelocityProfile) (e : RTError) :
    rayTrace v ping svp = Except.error e ↔
      svp.getLayerIndexForDepth ping.transducerDepth < svp.getSize
        ∧ svp.depthAt (svp.getLayerIndexForDepth ping.transducerDepth) = ping.transducerDepth
        ∧ e = RTError.sameDepthGradient ping.transducerDepth
            (svp.depthAt (svp.getLayerIndexForDepth ping.transducerDepth)) := by
  unfold rayTrace rayTraceFirstState transducerLayerStep soundSpeedGradient
  by_cases hcut : svp.getLayerIndexForDepth ping.transducerDepth < svp.getSize
  · by_cases hdep :
        svp.depthAt (svp.getLayerIndexForDepth ping.transducerDepth) = ping.transducerDepth
    · simp [hcut, hdep, Except.map, eq_comm]
    · simp [hcut, hdep, Except.map]
  · simp [hcut, Except.map]


/-! ### Fuel bound for the loops -/

lemma rayTraceLoopFuel_eq (svp : SoundVelocityProfile) (p t : ℝ) :
    ∀ fuel (st : WalkState), svp.getSize - 1 - st.idx ≤ fuel →
      rayTraceLoopFuel svp p t fuel st = some (rayTraceLoop svp p t st) := by
  intro fuel
  induction fuel with
  | zero =>
    intro st h
    rw [rayTraceLoopFuel, if_neg (fun hg => absurd hg.2 (by omega)),
      rayTraceLoop_exit _ _ _ _ (fun hg => absurd hg.2 (by omega))]
  | succ f ih =>
    intro st h
    by_cases hg : st.cumTime + st.curTime ≤ t ∧ st.idx < svp.getSize - 1
    · by_cases hc : st.cumTime + (layerStep svp p st.idx).deltaTravelTime ≤ t
      · rw [rayTraceLoopFuel, if_pos hg]
        simp only [if_pos hc]
        rw [rayTraceLoop_commit _ _ _ _ hg hc]
        exact ih _ (by show svp.getSize - 1 - (st.idx + 1) ≤ f; omega)
      · rw [rayTraceLoopFuel, if_pos hg]
        simp only [if_neg hc]
        rw [rayTraceLoop_break _ _ _ _ hg hc]
    · rw [rayTraceLoopFuel, if_neg hg, rayTraceLoop_exit _ _ _ _ hg]

lemma planarLoopFuel_eq (svp : SoundVelocityProfile) (p t : ℝ) :
    ∀ fuel (ps : PlanarState), svp.getSize - 1 - ps.walk.idx ≤ fuel →
      planarLoopFuel svp p t fuel ps = some (planarLoop svp p t ps) := by
  intro fuel
  induction fuel with
  | zero =>
    intro ps h
    rw [planarLoopFuel, if_neg (fun hg => absurd hg.2 (by omega)),
      planarLoop_exit _ _ _ _ (fun hg => absurd hg.2 (by omega))]
  | succ f ih =>
    intro ps h
    by_cases hg : ps.walk.cumTime + ps.walk.curTime ≤ t ∧ ps.walk.idx < svp.getSize - 1
    · by_cases hc : ps.walk.cumTime + (layerStep svp p ps.walk.idx).deltaTravelTime ≤ t
      · rw [planarLoopFuel, if_pos hg]
        simp only [if_pos hc]
        rw [planarLoop_commit _ _ _ _ hg hc]
        exact ih _ (by show svp.getSize - 1 - (ps.walk.idx + 1) ≤ f; omega)
      · rw [planarLoopFuel, if_pos hg]
        simp only [if_neg hc]
        rw [planarLoop_break _ _ _ _ hg hc]
    · rw [planarLoopFuel, if_neg hg, planarLoop_exit _ _ _ _ hg]

/-! ### A vertical-only ray accumulates no range -/

lemma layerStep_deltaR_zero (svp : SoundVelocityProfile) (i : ℕ) :
    (layerStep svp 0 i).deltaR = 0 := by
  unfold layerStep constantCelerityRayTracing constantGradientRayTracing
  by_cases h : |svp.gradientAt i| < gradientEpsilon <;> simp [h]

lemma rayTraceLoop_cumX_zero_aux (svp : SoundVelocityProfile) (t : ℝ) :
    ∀ n (st : WalkState), svp.getSize - 1 - st.idx ≤ n →
      (rayTraceLoop svp 0 t st).cumX = st.cumX := by
  intro n
  induction n with
  | zero =>
    intro st h
    rw [rayTraceLoop_exit _ _ _ _ (fun hg => absurd hg.2 (by omega))]
  | succ n ih =>
    intro st h
    by_cases hg : st.cumTime + st.curTime ≤ t ∧ st.idx < svp.getSize - 1
    · by_cases hc : st.cumTime + (layerStep svp 0 st.idx).deltaTravelTime ≤ t
      · rw [rayTraceLoop_commit _ _ _ _ hg hc]
        rw [ih _ (by show svp.getSize - 1 - (st.idx + 1) ≤ n; omega)]
        dsimp only
        rw [layerStep_deltaR_zero, add_zero]
      · rw [rayTraceLoop_break _ _ _ _ hg hc]
    · rw [rayTraceLoop_exit _ _ _ _ hg]

lemma rayTraceLoop_cumX_zero (svp : SoundVelocityProfile) (t : ℝ) (st : WalkState) :
    (rayTraceLoop svp 0 t st).cumX = st.cumX :=
  rayTraceLoop_cumX_zero_aux svp t _ st le_rfl

lemma lastLayerPropagation_deltaR_zero (lt c : ℝ) : (lastLayerPropagation lt c 0).2 = 0 := by
  simp [lastLayerPropagation]


/-! ### Destructuring the two trace functions -/

lemma planarRayTrace_ok_elim (v : ℝ × ℝ × ℝ) (ping : Ping) (svp : SoundVelocityProfile)
    (r₀ : List (ℝ × ℝ)) (t₀ : List ℝ) (out : (ℝ × ℝ) × List (ℝ × ℝ) × List ℝ)
    (h : planarRayTrace v ping svp r₀ t₀ = Except.ok out) :
    ∃ ps : PlanarState,
      planarFirstState ping svp
          (Real.cos (launchVectorParameters v).beta0 / ping.surfaceSoundSpeed)
          (ping.twoWayTravelTime / 2) (svp.getLayerIndexForDepth ping.transducerDepth) r₀ t₀
        = Except.ok ps
      ∧ out = planarFinalize ping svp
          (Real.cos (launchVectorParameters v).beta0 / ping.surfaceSoundSpeed)
          (ping.twoWayTravelTime / 2) (svp.getLayerIndexForDepth ping.transducerDepth) ps := by
  simp only [planarRayTrace] at h
  rcases hfs : planarFirstState ping svp
      (Real.cos (launchVectorParameters v).beta0 / ping.surfaceSoundSpeed)
      (ping.twoWayTravelTime / 2) (svp.getLayerIndexForDepth ping.transducerDepth) r₀ t₀
    with e | ps
  · rw [hfs] at h
    simp [Except.map] at h
  · rw [hfs] at h
    simp only [Except.map, Except.ok.injEq] at h
    exact ⟨ps, rfl, h.symm⟩

lemma rayTrace_ok_elim (v : ℝ × ℝ × ℝ) (ping : Ping) (svp : SoundVelocityProfile)
    (out : ℝ × ℝ × ℝ) (h : rayTrace v ping svp = Except.ok out) :
    ∃ st : WalkState,
      rayTraceFirstState ping svp
          (Real.cos (launchVectorParameters v).beta0 / ping.surfaceSoundSpeed)
          (ping.twoWayTravelTime / 2) (svp.getLayerIndexForDepth ping.transducerDepth)
        = Except.ok st
      ∧ out = rayTraceFinalize ping svp
          (Real.cos (launchVectorParameters v).beta0 / ping.surfaceSoundSpeed)
          (ping.twoWayTravelTime / 2) (svp.getLayerIndexForDepth ping.transducerDepth)
          (launchVectorParameters v) st := by
  simp only [rayTrace] at h
  rcases hfs : rayTraceFirstState ping svp
      (Real.cos (launchVectorParameters v).beta0 / ping.surfaceSoundSpeed)
      (ping.twoWayTravelTime / 2) (svp.getLayerIndexForDepth ping.transducerDepth)
    with e | st
  · rw [hfs] at h
    simp [Except.map] at h
  · rw [hfs] at h
    simp only [Except.map, Except.ok.injEq] at h
    exact ⟨st, rfl, h.symm⟩

lemma planarFirstState_walk (ping : Ping) (svp : SoundVelocityProfile) (p t : ℝ) (cutoff : ℕ)
    (r₀ : List (ℝ × ℝ)) (t₀ : List ℝ) (ps : PlanarState)
    (h : planarFirstState ping svp p t cutoff r₀ t₀ = Except.ok ps) :
    rayTraceFirstState ping svp p t cutoff = Except.ok ps.walk := by
  unfold planarFirstState at h
  unfold rayTraceFirstState
  by_cases hcut : cutoff < svp.getSize
  · rcases htr : transducerLayerStep ping svp p cutoff with e | s
    · rw [if_pos hcut, htr] at h
      simp [Except.map] at h
    · rw [if_pos hcut, htr] at h
      rw [if_pos hcut]
      simp only [Except.map, Except.ok.injEq] at h ⊢
      by_cases hcm : 0 + s.deltaTravelTime ≤ t
      · rw [if_pos hcm] at h
        rw [if_pos hcm, ← h]
      · rw [if_neg hcm] at h
        rw [if_neg hcm, ← h]
  · rw [if_neg hcut] at h
    rw [if_neg hcut]
    simp only [Except.ok.injEq] at h ⊢
    rw [← h]

/-- The 3D trace is the azimuth projection of the diagnostic trace aggregate. -/
lemma rayTrace_of_planar (v : ℝ × ℝ × ℝ) (ping : Ping) (svp : SoundVelocityProfile)
    (r₀ : List (ℝ × ℝ)) (t₀ : List ℝ) (out : (ℝ × ℝ) × List (ℝ × ℝ) × List ℝ)
    (h : planarRayTrace v ping svp r₀ t₀ = Except.ok out) :
    rayTrace v ping svp =
      Except.ok (out.1.1 * (launchVectorParameters v).sinAz,
        out.1.1 * (launchVectorParameters v).cosAz, out.1.2) := by
  obtain ⟨ps, hfs, hout⟩ := planarRayTrace_ok_elim v ping svp r₀ t₀ out h
  simp only [rayTrace]
  rw [planarFirstState_walk _ _ _ _ _ _ _ _ hfs]
  simp only [Except.map, Except.ok.injEq]
  rw [hout]
  unfold rayTraceFinalize planarFinalize
  dsimp only
  rw [planarLoop_walk]


/-- Bookkeeping of the pre-loop state: the appended travel times track the
committed cumulative time, and rays/times grow in lockstep. -/
lemma planarFirstState_facts (ping : Ping) (svp : SoundVelocityProfile) (p t : ℝ) (cutoff : ℕ)
    (r₀ : List (ℝ × ℝ)) (t₀ : List ℝ) (ps : PlanarState)
    (h : planarFirstState ping svp p t cutoff r₀ t₀ = Except.ok ps) :
    ps.times.sum - ps.walk.cumTime = t₀.sum
      ∧ ps.rays.length + t₀.length = ps.times.length + r₀.length
      ∧ t₀.length ≤ ps.times.length := by
  unfold planarFirstState at h
  by_cases hcut : cutoff < svp.getSize
  · rcases htr : transducerLayerStep ping svp p cutoff with e | s
    · rw [if_pos hcut, htr] at h
      simp [Except.map] at h
    · rw [if_pos hcut, htr] at h
      simp only [Except.map, Except.ok.injEq] at h
      by_cases hcm : 0 + s.deltaTravelTime ≤ t
      · rw [if_pos hcm] at h
        rw [← h]
        refine ⟨?_, ?_, ?_⟩
        · simp only [List.sum_append, List.sum_cons, List.sum_nil]
          ring
        · simp only [List.length_append, List.length_cons, List.length_nil]
          omega
        · simp only [List.length_append, List.length_cons, List.length_nil]
          omega
      · rw [if_neg hcm] at h
        rw [← h]
        dsimp only
        exact ⟨by simp, by omega, le_rfl⟩
  · rw [if_neg hcut] at h
    simp only [Except.ok.injEq] at h
    rw [← h]
    dsimp only
    exact ⟨by simp, by omega, le_rfl⟩

/-! ### Concrete scenario A: transducer (depth 5) below a one-sample profile
(depth 0, speed 1), launch vector (0, 3/5, 4/5), two-way travel time 2. -/

def vA : ℝ × ℝ × ℝ := (0, 3/5, 4/5)

def pingA : Ping := ⟨2, 1, 5⟩

def svpA : SoundVelocityProfile := ⟨[0], [1]⟩

lemma cosArcsin45 : Real.cos (Real.arcsin (4/5)) = 3/5 := by
  rw [Real.cos_arcsin, sqrt_eval (b := 3/5) (by norm_num) (by norm_num)]

lemma lvpA : launchVectorParameters vA = ⟨0, 1, Real.arcsin (4/5)⟩ := by
  have hs : Real.sqrt ((0:ℝ) ^ 2 + (3/5) ^ 2) = 3/5 := sqrt_eval (by norm_num) (by norm_num)
  simp only [launchVectorParameters, vA, hs]
  norm_num

lemma cutoffA : SoundVelocityProfile.getLayerIndexForDepth ⟨[0], [1]⟩ 5 = 1 := by
  simp only [SoundVelocityProfile.getLayerIndexForDepth, firstAtOrBelow]
  norm_num

lemma planarA : planarRayTrace vA pingA svpA [] [] =
    Except.ok ((3/5, 4/5), [(3/5, 4/5)], [(1 : ℝ)]) := by
  have hsin : Real.sqrt (1 - ((3:ℝ)/5 * 1) ^ 2) = 4/5 := sqrt_eval (by norm_num) (by norm_num)
  have hsinb : Real.sqrt (1 - (9:ℝ)/25) = 4/5 := sqrt_eval (by norm_num) (by norm_num)
  have hsinc : Real.sqrt ((16:ℝ)/25) = 4/5 := sqrt_eval (by norm_num) (by norm_num)
  have hsz : SoundVelocityProfile.getSize ⟨[0], [1]⟩ = 1 := rfl
  have hexit : planarLoop ⟨[0], [1]⟩ ((3:ℝ)/5) 1 ⟨⟨0, 0, 0, 0, 1⟩, [], []⟩ =
      ⟨⟨0, 0, 0, 0, 1⟩, [], []⟩ := by
    apply planarLoop_exit
    simp [SoundVelocityProfile.getSize]
  simp only [planarRayTrace, lvpA, cosArcsin45, pingA, svpA]
  norm_num [planarFirstState, planarFinalize, Except.map, hexit, lastLayerPropagation, hsz,
    cutoffA, hsin, hsinb, hsinc]

lemma rayTraceA : rayTrace vA pingA svpA = Except.ok (0, 3/5, 4/5) := by
  have hsin : Real.sqrt (1 - ((3:ℝ)/5 * 1) ^ 2) = 4/5 := sqrt_eval (by norm_num) (by norm_num)
  have hsinb : Real.sqrt (1 - (9:ℝ)/25) = 4/5 := sqrt_eval (by norm_num) (by norm_num)
  have hsinc : Real.sqrt ((16:ℝ)/25) = 4/5 := sqrt_eval (by norm_num) (by norm_num)
  have hsz : SoundVelocityProfile.getSize ⟨[0], [1]⟩ = 1 := rfl
  have hexit : rayTraceLoop ⟨[0], [1]⟩ ((3:ℝ)/5) 1 ⟨0, 0, 0, 0, 1⟩ = ⟨0, 0, 0, 0, 1⟩ := by
    apply rayTraceLoop_exit
    simp [SoundVelocityProfile.getSize]
  simp only [rayTrace, lvpA, cosArcsin45, pingA, svpA]
  norm_num [rayTraceFirstState, rayTraceFinalize, Except.map, hexit, lastLayerPropagation, hsz,
    cutoffA, hsin, hsinb, hsinc]

/-! ### Claim theorems -/

/-- C1: time conservation.  For every completed diagnostic trace started with
empty output vectors, the sum of all entries of layerTravelTimes (committed
layer times plus the always-appended final remaining time) equals the one-way
travel time getTwoWayTravelTime()/2 — exactly over ℝ, hence in particular
within the 1e-9 tolerance. -/
theorem c1_time_conservation (v : ℝ × ℝ × ℝ) (ping : Ping) (svp : SoundVelocityProfile)
    (out : (ℝ × ℝ) × List (ℝ × ℝ) × List ℝ)
    (h : planarRayTrace v ping svp [] [] = Except.ok out) :
    out.2.2.sum = ping.twoWayTravelTime / 2
      ∧ |out.2.2.sum - ping.twoWayTravelTime / 2| ≤ 1 / 1000000000 := by
  obtain ⟨ps, hfs, hout⟩ := planarRayTrace_ok_elim v ping svp [] [] out h
  obtain ⟨hsum, -, -⟩ := planarFirstState_facts _ _ _ _ _ _ _ _ hfs
  obtain ⟨-, -, h3⟩ := planarLoop_lists svp
    (Real.cos (launchVectorParameters v).beta0 / ping.surfaceSoundSpeed)
    (ping.twoWayTravelTime / 2) ps
  rw [hsum] at h3
  simp only [List.sum_nil] at h3
  have hmain : out.2.2.sum = ping.twoWayTravelTime / 2 := by
    rw [hout]
    unfold planarFinalize
    dsimp only
    simp only [List.sum_append, List.sum_cons, List.sum_nil]
    linarith
  exact ⟨hmain, by rw [hmain, sub_self, abs_zero]; norm_num⟩

/-- C1 witness: the scenario-A trace completes with layerTravelTimes = [1],
whose sum is the one-way travel time 2/2 = 1. -/
theorem c1_time_conservation_witness :
    ((3/5, 4/5), [((3:ℝ)/5, (4:ℝ)/5)], [(1 : ℝ)]).2.2.sum = pingA.twoWayTravelTime / 2
      ∧ |((3/5, 4/5), [((3:ℝ)/5, (4:ℝ)/5)], [(1 : ℝ)]).2.2.sum - pingA.twoWayTravelTime / 2|
        ≤ 1 / 1000000000 :=
  c1_time_conservation vA pingA svpA _ planarA

/-- C8: termination and iteration bound.  Both layer-walk loops terminate
within getSize() - 1 - startIndex committed iterations: run with exactly that
much fuel, the fuel-indexed loops do not run out and compute the loop results.
Each iteration strictly increments the layer index (bounded by getSize() - 1)
or breaks. -/
theorem c8_termination_bound (svp : SoundVelocityProfile) (p t : ℝ) :
    (∀ st : WalkState,
      rayTraceLoopFuel svp p t (svp.getSize - 1 - st.idx) st = some (rayTraceLoop svp p t st))
    ∧ (∀ ps : PlanarState,
      planarLoopFuel svp p t (svp.getSize - 1 - ps.walk.idx) ps
        = some (planarLoop svp p t ps)) :=
  ⟨fun st => rayTraceLoopFuel_eq svp p t _ st le_rfl,
   fun ps => planarLoopFuel_eq svp p t _ ps le_rfl⟩

/-- C9: azimuth decomposition of the launch vector.  When the horizontal
component of the navigation-frame launch vector has zero magnitude, sinAz and
cosAz are both set to 0 instead of dividing by the zero magnitude; when it is
positive, sinAz = x/norm and cosAz = y/norm (NED convention). -/
theorem c9_azimuth_decomposition (v : ℝ × ℝ × ℝ) :
    (Real.sqrt (v.1 ^ 2 + v.2.1 ^ 2) = 0 →
      (launchVectorParameters v).sinAz = 0 ∧ (launchVectorParameters v).cosAz = 0)
    ∧ (0 < Real.sqrt (v.1 ^ 2 + v.2.1 ^ 2) →
      (launchVectorParameters v).sinAz = v.1 / Real.sqrt (v.1 ^ 2 + v.2.1 ^ 2)
        ∧ (launchVectorParameters v).cosAz = v.2.1 / Real.sqrt (v.1 ^ 2 + v.2.1 ^ 2)) := by
  unfold launchVectorParameters
  dsimp only
  constructor
  · intro h
    rw [h]
    norm_num
  · intro h
    rw [if_pos h, if_pos h]
    exact ⟨rfl, rfl⟩

/-- C9 witness: at the vertical-only launch vector (0,0,1) the azimuth pair is
(0,0); at (0, 3/5, 4/5) it is (0, 1). -/
theorem c9_azimuth_decomposition_witness :
    ((launchVectorParameters (0, 0, 1)).sinAz = 0 ∧ (launchVectorParameters (0, 0, 1)).cosAz = 0)
      ∧ (launchVectorParameters (0, 3/5, 4/5)).sinAz = 0 / Real.sqrt ((0:ℝ) ^ 2 + (3/5) ^ 2)
      ∧ (launchVectorParameters (0, 3/5, 4/5)).cosAz = (3/5) / Real.sqrt ((0:ℝ) ^ 2 + (3/5) ^ 2) := by
  have h1 := (c9_azimuth_decomposition (0, 0, 1)).1
  have h2 := (c9_azimuth_decomposition (0, 3/5, 4/5)).2
  refine ⟨h1 ?_, h2 ?_⟩
  · rw [show (0:ℝ)^2 + (0:ℝ)^2 = 0 by norm_num]
    exact Real.sqrt_zero
  · rw [sqrt_eval (a := (0:ℝ)^2 + (3/5)^2) (b := 3/5) (by norm_num) (by norm_num)]
    norm_num

/-- C10: on every successful planarRayTrace call, layerRays and
layerTravelTimes gain the same number of entries and gain at least one entry
(the final segment and remaining time are appended unconditionally). -/
theorem c10_planar_output_lists (v : ℝ × ℝ × ℝ) (ping : Ping) (svp : SoundVelocityProfile)
    (r₀ : List (ℝ × ℝ)) (t₀ : List ℝ) (out : (ℝ × ℝ) × List (ℝ × ℝ) × List ℝ)
    (h : planarRayTrace v ping svp r₀ t₀ = Except.ok out) :
    out.2.1.length + t₀.length = out.2.2.length + r₀.length
      ∧ t₀.length < out.2.2.length := by
  obtain ⟨ps, hfs, hout⟩ := planarRayTrace_ok_elim v ping svp r₀ t₀ out h
  obtain ⟨-, hlen, hle⟩ := planarFirstState_facts _ _ _ _ _ _ _ _ hfs
  obtain ⟨hl1, hl2, -⟩ := planarLoop_lists svp
    (Real.cos (launchVectorParameters v).beta0 / ping.surfaceSoundSpeed)
    (ping.twoWayTravelTime / 2) ps
  rw [hout]
  unfold planarFinalize
  dsimp only
  simp only [List.length_append, List.length_cons, List.length_nil]
  omega

/-- C10 witness: the scenario-A trace extends the empty vectors to one segment
and one travel time each. -/
theorem c10_planar_output_lists_witness :
    ((3/5, 4/5), [((3:ℝ)/5, (4:ℝ)/5)], [(1 : ℝ)]).2.1.length + ([] : List ℝ).length
        = ((3/5, 4/5), [((3:ℝ)/5, (4:ℝ)/5)], [(1 : ℝ)]).2.2.length + ([] : List (ℝ × ℝ)).length
      ∧ ([] : List ℝ).length < ((3/5, 4/5), [((3:ℝ)/5, (4:ℝ)/5)], [(1 : ℝ)]).2.2.length :=
  c10_planar_output_lists vA pingA svpA [] [] _ planarA


/-- C5: transducer below the whole profile.  When the depth-to-layer-index
lookup returns the out-of-range sentinel, the trace skips the transducer-layer
step and the layer walk entirely and goes straight to Last-Layer with the
surface sound speed as local speed: the result is the constant-celerity
(straight-line) propagation of lastLayerPropagation over the full one-way
travel time, re-oriented by the azimuth pair. -/
theorem c5_transducer_below_profile (v : ℝ × ℝ × ℝ) (ping : Ping) (svp : SoundVelocityProfile)
    (h : svp.getSize ≤ svp.getLayerIndexForDepth ping.transducerDepth) :
    rayTrace v ping svp =
      Except.ok
        ((lastLayerPropagation (ping.twoWayTravelTime / 2) ping.surfaceSoundSpeed
            (Real.cos (launchVectorParameters v).beta0 / ping.surfaceSoundSpeed)).2
            * (launchVectorParameters v).sinAz,
         (lastLayerPropagation (ping.twoWayTravelTime / 2) ping.surfaceSoundSpeed
            (Real.cos (launchVectorParameters v).beta0 / ping.surfaceSoundSpeed)).2
            * (launchVectorParameters v).cosAz,
         (lastLayerPropagation (ping.twoWayTravelTime / 2) ping.surfaceSoundSpeed
            (Real.cos (launchVectorParameters v).beta0 / ping.surfaceSoundSpeed)).1) := by
  have hcut : ¬ svp.getLayerIndexForDepth ping.transducerDepth < svp.getSize := by omega
  simp only [rayTrace, rayTraceFirstState]
  rw [if_neg hcut]
  simp only [Except.map, Except.ok.injEq, rayTraceFinalize]
  rw [rayTraceLoop_exit _ _ _ _ (fun hg => absurd hg.2 (by dsimp only; omega))]
  dsimp only
  rw [if_neg hcut]
  simp only [sub_zero, zero_add]

/-- C5 witness: scenario A (transducer depth 5, one-sample profile at depth 0)
goes straight to Last-Layer with the surface sound speed. -/
theorem c5_transducer_below_profile_witness :
    rayTrace vA pingA svpA =
      Except.ok
        ((lastLayerPropagation (pingA.twoWayTravelTime / 2) pingA.surfaceSoundSpeed
            (Real.cos (launchVectorParameters vA).beta0 / pingA.surfaceSoundSpeed)).2
            * (launchVectorParameters vA).sinAz,
         (lastLayerPropagation (pingA.twoWayTravelTime / 2) pingA.surfaceSoundSpeed
            (Real.cos (launchVectorParameters vA).beta0 / pingA.surfaceSoundSpeed)).2
            * (launchVectorParameters vA).cosAz,
         (lastLayerPropagation (pingA.twoWayTravelTime / 2) pingA.surfaceSoundSpeed
            (Real.cos (launchVectorParameters vA).beta0 / pingA.surfaceSoundSpeed)).1) :=
  c5_transducer_below_profile vA pingA svpA
    (by norm_num [svpA, pingA, SoundVelocityProfile.getSize, cutoffA])

/-- C3: exact-landing tie-break.  Both fit comparisons are less-than-or-equal:
(a) in the layer-walk loop, a step whose cumulative time lands exactly on the
target is committed (time, range, depth accumulated and the index advanced);
(b) end to end in diagnostic mode, a transducer-layer step landing exactly on
the one-way travel time is committed and appended, and the Last-Layer
remaining time is then exactly zero (a zero travel time and a zero segment are
appended). -/
theorem c3_exact_fit_committed :
    (∀ (svp : SoundVelocityProfile) (p t : ℝ) (st : WalkState),
      st.cumTime + st.curTime ≤ t → st.idx < svp.getSize - 1 →
      st.cumTime + (layerStep svp p st.idx).deltaTravelTime = t →
      rayTraceLoop svp p t st =
        rayTraceLoop svp p t
          ⟨t, st.cumX + (layerStep svp p st.idx).deltaR,
           st.cumZ + (layerStep svp p st.idx).deltaZ,
           (layerStep svp p st.idx).deltaTravelTime, st.idx + 1⟩)
    ∧ (∀ (v : ℝ × ℝ × ℝ) (ping : Ping) (svp : SoundVelocityProfile)
        (r₀ : List (ℝ × ℝ)) (t₀ : List ℝ) (s : RayStep),
      svp.getLayerIndexForDepth ping.transducerDepth < svp.getSize →
      transducerLayerStep ping svp
          (Real.cos (launchVectorParameters v).beta0 / ping.surfaceSoundSpeed)
          (svp.getLayerIndexForDepth ping.transducerDepth) = Except.ok s →
      s.deltaTravelTime = ping.twoWayTravelTime / 2 →
      0 < ping.twoWayTravelTime / 2 →
      planarRayTrace v ping svp r₀ t₀ =
        Except.ok ((s.deltaR, s.deltaZ),
          r₀ ++ [(s.deltaR, s.deltaZ), ((0:ℝ), (0:ℝ))],
          t₀ ++ [s.deltaTravelTime, (0:ℝ)])) := by
  constructor
  · intro svp p t st h1 h2 h3
    rw [rayTraceLoop_commit _ _ _ _ ⟨h1, h2⟩ (le_of_eq h3), h3]
  · intro v ping svp r₀ t₀ s hcut htr ht hpos
    simp only [planarRayTrace, planarFirstState]
    rw [if_pos hcut, htr]
    simp only [Except.map]
    rw [if_pos (by rw [zero_add, ht])]
    simp only [planarFinalize]
    rw [planarLoop_exit _ _ _ _ (fun hg => by
      have h1 := hg.1
      dsimp only at h1
      rw [ht] at h1
      linarith)]
    dsimp only
    rw [zero_add, zero_add, zero_add, ht, sub_self]
    simp [lastLayerPropagation, List.append_assoc]

/-! ### Concrete scenario B: exact fit of the transducer layer.  Profile
[(1, 1)], transducer at depth 0, speed 1, two-way time 5/2: the transducer
step takes time exactly 5/4 = one-way time. -/

def pingB : Ping := ⟨5/2, 1, 0⟩

def svpB : SoundVelocityProfile := ⟨[1], [1]⟩

lemma cutoffB : SoundVelocityProfile.getLayerIndexForDepth ⟨[1], [1]⟩ 0 = 0 := by
  simp only [SoundVelocityProfile.getLayerIndexForDepth, firstAtOrBelow]
  norm_num

lemma transB : transducerLayerStep pingB svpB (3/5) 0 = Except.ok ⟨1, 3/4, 5/4⟩ := by
  have hsin : Real.sqrt (1 - ((3:ℝ)/5 * 1) ^ 2) = 4/5 := sqrt_eval (by norm_num) (by norm_num)
  have h16 : Real.sqrt (16:ℝ) = 4 := sqrt_eval (by norm_num) (by norm_num)
  have h25 : Real.sqrt (25:ℝ) = 5 := sqrt_eval (by norm_num) (by norm_num)
  unfold transducerLayerStep soundSpeedGradient
  norm_num [pingB, svpB, SoundVelocityProfile.depthAt, SoundVelocityProfile.speedAt,
    Except.map, constantCelerityRayTracing, gradientEpsilon, hsin, h16, h25]

/-- C3 witness: in scenario B the transducer layer lands exactly on the
one-way travel time 5/4; it is committed and appended, and the final appended
remaining time is exactly zero. -/
theorem c3_exact_fit_committed_witness :
    planarRayTrace vA pingB svpB [] [] =
      Except.ok (((3:ℝ)/4, (1:ℝ)), [((3:ℝ)/4, (1:ℝ)), (0, 0)], [(5:ℝ)/4, 0]) := by
  have hsnell : Real.cos (launchVectorParameters vA).beta0 / pingB.surfaceSoundSpeed = 3/5 := by
    rw [lvpA]
    show Real.cos (Real.arcsin (4/5)) / pingB.surfaceSoundSpeed = 3/5
    rw [cosArcsin45]
    norm_num [pingB]
  have hco : svpB.getLayerIndexForDepth pingB.transducerDepth = 0 := by
    simp only [svpB, pingB, SoundVelocityProfile.getLayerIndexForDepth, firstAtOrBelow]
    norm_num
  have hcut : svpB.getLayerIndexForDepth pingB.transducerDepth < svpB.getSize := by
    rw [hco]
    norm_num [svpB, SoundVelocityProfile.getSize]
  have htr : transducerLayerStep pingB svpB
      (Real.cos (launchVectorParameters vA).beta0 / pingB.surfaceSoundSpeed)
      (svpB.getLayerIndexForDepth pingB.transducerDepth) = Except.ok ⟨1, 3/4, 5/4⟩ := by
    rw [hsnell, hco]
    exact transB
  have := c3_exact_fit_committed.2 vA pingB svpB [] [] ⟨1, 3/4, 5/4⟩ hcut htr
    (by norm_num [pingB]) (by norm_num [pingB])
  simpa [pingB] using this


/-- C4 (amended): the duplicate-depth guard protects only the
transducer-to-first-sample gradient.  (a) If the first at-or-below sample
shares the transducer depth, the trace fails fast with the domain error
carrying both depths; (b) otherwise the trace never raises: interior layers
consume the profile precomputed gradient without any duplicate-depth check. -/
theorem c4_degenerate_profile_guard :
    (∀ (v : ℝ × ℝ × ℝ) (ping : Ping) (svp : SoundVelocityProfile),
      svp.getLayerIndexForDepth ping.transducerDepth < svp.getSize →
      svp.depthAt (svp.getLayerIndexForDepth ping.transducerDepth) = ping.transducerDepth →
      rayTrace v ping svp = Except.error (RTError.sameDepthGradient ping.transducerDepth
        (svp.depthAt (svp.getLayerIndexForDepth ping.transducerDepth))))
    ∧ (∀ (v : ℝ × ℝ × ℝ) (ping : Ping) (svp : SoundVelocityProfile),
      (svp.getLayerIndexForDepth ping.transducerDepth < svp.getSize →
        svp.depthAt (svp.getLayerIndexForDepth ping.transducerDepth) ≠ ping.transducerDepth) →
      ∃ out, rayTrace v ping svp = Except.ok out) := by
  constructor
  · intro v ping svp h1 h2
    exact (rayTrace_error_iff v ping svp _).mpr ⟨h1, h2, rfl⟩
  · intro v ping svp hne
    rcases hE : rayTrace v ping svp with e | out
    · have h := (rayTrace_error_iff v ping svp e).mp hE
      exact absurd h.2.1 (hne h.1)
    · exact ⟨out, rfl⟩

/-! ### Concrete scenario E: the transducer (depth 0) coincides with the first
profile sample depth: the domain error is raised. -/

def pingE : Ping := ⟨1, 1500, 0⟩

def svpE : SoundVelocityProfile := ⟨[0], [1500]⟩

lemma cutoffE : svpE.getLayerIndexForDepth pingE.transducerDepth = 0 := by
  simp only [svpE, pingE, SoundVelocityProfile.getLayerIndexForDepth, firstAtOrBelow]
  norm_num

/-- C4 witness: with the transducer exactly at the single profile sample depth
0, rayTrace raises the domain error carrying both depths. -/
theorem c4_degenerate_profile_guard_witness :
    rayTrace vA pingE svpE = Except.error (RTError.sameDepthGradient 0 0) := by
  have hdep : svpE.depthAt (svpE.getLayerIndexForDepth pingE.transducerDepth)
      = pingE.transducerDepth := by
    rw [cutoffE]
    norm_num [svpE, pingE, SoundVelocityProfile.depthAt, List.getD]
  have hcut : svpE.getLayerIndexForDepth pingE.transducerDepth < svpE.getSize := by
    rw [cutoffE]
    norm_num [svpE, SoundVelocityProfile.getSize]
  have h := c4_degenerate_profile_guard.1 vA pingE svpE hcut hdep
  rw [h, cutoffE]
  norm_num [svpE, pingE, SoundVelocityProfile.depthAt, List.getD]

/-! ### Concrete scenario D: a profile with two adjacent samples at the same
depth 5, reached and walked over by the layer loop without any error. -/

def pingD : Ping := ⟨28, 1, -1⟩

def svpD : SoundVelocityProfile := ⟨[0, 5, 5], [1, 1, 1]⟩

lemma cutoffD : SoundVelocityProfile.getLayerIndexForDepth ⟨[0, 5, 5], [1, 1, 1]⟩ (-1) = 0 := by
  simp only [SoundVelocityProfile.getLayerIndexForDepth, firstAtOrBelow]
  norm_num

lemma transD : transducerLayerStep ⟨28, 1, -1⟩ ⟨[0, 5, 5], [1, 1, 1]⟩ (3/5) 0 =
    Except.ok ⟨1, 3/4, 5/4⟩ := by
  have hsin : Real.sqrt (1 - ((3:ℝ)/5 * 1) ^ 2) = 4/5 := sqrt_eval (by norm_num) (by norm_num)
  have h16 : Real.sqrt (16:ℝ) = 4 := sqrt_eval (by norm_num) (by norm_num)
  have h25 : Real.sqrt (25:ℝ) = 5 := sqrt_eval (by norm_num) (by norm_num)
  unfold transducerLayerStep soundSpeedGradient
  norm_num [SoundVelocityProfile.depthAt, SoundVelocityProfile.speedAt, List.getD,
    Except.map, constantCelerityRayTracing, gradientEpsilon, hsin, h16, h25]

lemma layerStepD0 : layerStep ⟨[0, 5, 5], [1, 1, 1]⟩ (3/5) 0 = ⟨5, 15/4, 25/4⟩ := by
  have hsin : Real.sqrt (1 - ((3:ℝ)/5 * 1) ^ 2) = 4/5 := sqrt_eval (by norm_num) (by norm_num)
  have h16 : Real.sqrt (16:ℝ) = 4 := sqrt_eval (by norm_num) (by norm_num)
  have h25 : Real.sqrt (25:ℝ) = 5 := sqrt_eval (by norm_num) (by norm_num)
  unfold layerStep SoundVelocityProfile.gradientAt
  norm_num [SoundVelocityProfile.depthAt, SoundVelocityProfile.speedAt, List.getD,
    constantCelerityRayTracing, gradientEpsilon, hsin, h16, h25]

lemma layerStepD1 : layerStep ⟨[0, 5, 5], [1, 1, 1]⟩ (3/5) 1 = ⟨0, 0, 0⟩ := by
  have hsin : Real.sqrt (1 - ((3:ℝ)/5 * 1) ^ 2) = 4/5 := sqrt_eval (by norm_num) (by norm_num)
  have h16 : Real.sqrt (16:ℝ) = 4 := sqrt_eval (by norm_num) (by norm_num)
  have h25 : Real.sqrt (25:ℝ) = 5 := sqrt_eval (by norm_num) (by norm_num)
  unfold layerStep SoundVelocityProfile.gradientAt
  norm_num [SoundVelocityProfile.depthAt, SoundVelocityProfile.speedAt, List.getD,
    constantCelerityRayTracing, gradientEpsilon, hsin, h16, h25]

lemma loopD : rayTraceLoop ⟨[0, 5, 5], [1, 1, 1]⟩ (3/5) 14 ⟨5/4, 3/4, 1, 5/4, 0⟩ =
    ⟨15/2, 9/2, 6, 0, 2⟩ := by
  have h1 : rayTraceLoop ⟨[0, 5, 5], [1, 1, 1]⟩ (3/5) 14 ⟨5/4, 3/4, 1, 5/4, 0⟩
      = rayTraceLoop ⟨[0, 5, 5], [1, 1, 1]⟩ (3/5) 14 ⟨15/2, 9/2, 6, 25/4, 1⟩ := by
    rw [rayTraceLoop_commit _ _ _ _
      ⟨by norm_num, by norm_num [SoundVelocityProfile.getSize]⟩
      (by norm_num [layerStepD0])]
    norm_num [layerStepD0]
  have h2 : rayTraceLoop ⟨[0, 5, 5], [1, 1, 1]⟩ (3/5) 14 ⟨15/2, 9/2, 6, 25/4, 1⟩
      = rayTraceLoop ⟨[0, 5, 5], [1, 1, 1]⟩ (3/5) 14 ⟨15/2, 9/2, 6, 0, 2⟩ := by
    rw [rayTraceLoop_commit _ _ _ _
      ⟨by norm_num, by norm_num [SoundVelocityProfile.getSize]⟩
      (by norm_num [layerStepD1])]
    norm_num [layerStepD1]
  rw [h1, h2]
  apply rayTraceLoop_exit
  intro hg
  have := hg.2
  dsimp only at this
  norm_num [SoundVelocityProfile.getSize] at this

/-- C4 counterexample: in scenario D the profile has two adjacent samples at
the identical depth 5 (indices 1 and 2); the trace reaches them, walks the
degenerate layer inside the accumulation loop (committing a zero-length step
from its precomputed gradient) and completes normally with an ok result — no
domain error is raised, refuting the claim for layers inside the loop. -/
theorem c4_counterexample :
    svpD.depthAt 1 = svpD.depthAt 2
      ∧ rayTrace vA pingD svpD = Except.ok (0, 42/5, 56/5) := by
  constructor
  · norm_num [svpD, SoundVelocityProfile.depthAt, List.getD]
  · have hsin : Real.sqrt (1 - ((3:ℝ)/5 * 1) ^ 2) = 4/5 := sqrt_eval (by norm_num) (by norm_num)
    have hsinb : Real.sqrt (1 - (9:ℝ)/25) = 4/5 := sqrt_eval (by norm_num) (by norm_num)
    have hsinc : Real.sqrt ((16:ℝ)/25) = 4/5 := sqrt_eval (by norm_num) (by norm_num)
    have h16 : Real.sqrt (16:ℝ) = 4 := sqrt_eval (by norm_num) (by norm_num)
    have h25 : Real.sqrt (25:ℝ) = 5 := sqrt_eval (by norm_num) (by norm_num)
    have hsz : SoundVelocityProfile.getSize ⟨[0, 5, 5], [1, 1, 1]⟩ = 3 := rfl
    simp only [rayTrace, lvpA, cosArcsin45, pingD, svpD]
    norm_num [rayTraceFirstState, rayTraceFinalize, Except.map, cutoffD, transD, hsz, loopD,
      lastLayerPropagation, SoundVelocityProfile.speedAt, List.getD, hsin, hsinb, hsinc, h16, h25]


/-! ### Concrete scenario F: horizontal ray (launch vector (0,1,0)), surface
speed 1 but profile speed 3: the Snell cosine at the first sample is 3,
outside [-1, 1], driving sqrt(1 - 3^2) out of its real domain. -/

def pingF : Ping := ⟨200, 1, 0⟩

def svpF : SoundVelocityProfile := ⟨[1], [3]⟩

lemma lvpF : launchVectorParameters (0, 1, 0) = ⟨0, 1, Real.arcsin 0⟩ := by
  have hs : Real.sqrt ((0:ℝ) ^ 2 + 1 ^ 2) = 1 := sqrt_eval (by norm_num) (by norm_num)
  simp only [launchVectorParameters, hs]
  norm_num

lemma cutoffF : SoundVelocityProfile.getLayerIndexForDepth ⟨[1], [3]⟩ 0 = 0 := by
  simp only [SoundVelocityProfile.getLayerIndexForDepth, firstAtOrBelow]
  norm_num

lemma transF : transducerLayerStep ⟨200, 1, 0⟩ ⟨[1], [3]⟩ 1 0 =
    Except.ok ⟨1, 0, Real.log 3 / 2⟩ := by
  have hneg : Real.sqrt ((-8):ℝ) = 0 := Real.sqrt_eq_zero_of_nonpos (by norm_num)
  have hneg2 : Real.sqrt (1 - (9:ℝ)) = 0 := Real.sqrt_eq_zero_of_nonpos (by norm_num)
  have habs : |1 / 2 * Real.log 3| = Real.log 3 / 2 := by
    rw [abs_of_nonneg (mul_nonneg (by norm_num) (Real.log_nonneg (by norm_num)))]
    ring
  have habs2 : |2⁻¹ * Real.log 3| = Real.log 3 / 2 := by
    rw [abs_of_nonneg (mul_nonneg (by norm_num) (Real.log_nonneg (by norm_num)))]
    ring
  unfold transducerLayerStep soundSpeedGradient
  norm_num [SoundVelocityProfile.depthAt, SoundVelocityProfile.speedAt, List.getD,
    Except.map, constantGradientRayTracing, gradientEpsilon, Real.sqrt_zero, hneg, hneg2, habs,
    habs2]

/-- C6 counterexample: in scenario F the Snell cosine at the first profile
sample is (cos β0 / surface speed) · layer speed = 3, so the sqrt argument
1 - 3² = -8 is out of the real domain (IEEE: sqrt(-8) = NaN) — yet the trace
raises no computation error and returns a normal ok result, refuting the
claim. -/
theorem c6_counterexample :
    (1 : ℝ) - ((Real.cos (launchVectorParameters (0, 1, 0)).beta0 / pingF.surfaceSoundSpeed)
        * svpF.speedAt 0) ^ 2 < 0
    ∧ rayTrace (0, 1, 0) pingF svpF = Except.ok (0, 9 * (100 - Real.log 3 / 2), 1) := by
  have hlog2 : Real.log 3 ≤ 2 := by
    have h := Real.log_le_sub_one_of_pos (show (0:ℝ) < 3 by norm_num)
    linarith
  have hlognn : (0:ℝ) ≤ Real.log 3 := Real.log_nonneg (by norm_num)
  constructor
  · rw [lvpF]
    show (1 : ℝ) - ((Real.cos (Real.arcsin 0) / pingF.surfaceSoundSpeed) * svpF.speedAt 0) ^ 2 < 0
    norm_num [Real.arcsin_zero, Real.cos_zero, pingF, svpF, SoundVelocityProfile.speedAt,
      List.getD]
  · have hneg : Real.sqrt ((-8):ℝ) = 0 := Real.sqrt_eq_zero_of_nonpos (by norm_num)
    have hneg2 : Real.sqrt (1 - (9:ℝ)) = 0 := Real.sqrt_eq_zero_of_nonpos (by norm_num)
    have hsz : SoundVelocityProfile.getSize ⟨[1], [3]⟩ = 1 := rfl
    have hc1 : (0:ℝ) + Real.log 3 / 2 ≤ 100 := by linarith
    have hc2 : Real.log 3 / 2 ≤ (100:ℝ) := by linarith
    have hexit : rayTraceLoop ⟨[1], [3]⟩ 1 100 ⟨Real.log 3 / 2, 0, 1, Real.log 3 / 2, 0⟩ =
        ⟨Real.log 3 / 2, 0, 1, Real.log 3 / 2, 0⟩ := by
      apply rayTraceLoop_exit
      intro hg
      have := hg.2
      dsimp only at this
      norm_num [SoundVelocityProfile.getSize] at this
    simp only [rayTrace, lvpF]
    norm_num [Real.arcsin_zero, Real.cos_zero, pingF, svpF, rayTraceFirstState,
      rayTraceFinalize, Except.map, cutoffF, transF, hsz, hc1, hc2, hexit,
      lastLayerPropagation, SoundVelocityProfile.speedAt, List.getD, Real.sqrt_zero,
      hneg, hneg2]
    ring

/-- C6 (amended): the propagation formulas contain no domain checks and the
trace never raises a computation error for out-of-domain sqrt/log inputs: the
only error rayTrace ever returns is the duplicate-depth domain error of the
transducer-layer gradient (so any error implies the transducer sat exactly on
the first at-or-below sample).  Out-of-domain intermediate values flow through
sqrt unchecked (IEEE NaN; junk value 0 in this embedding) into a normally
returned result. -/
theorem c6_no_computation_error (v : ℝ × ℝ × ℝ) (ping : Ping) (svp : SoundVelocityProfile)
    (e : RTError) (h : rayTrace v ping svp = Except.error e) :
    svp.getLayerIndexForDepth ping.transducerDepth < svp.getSize
      ∧ svp.depthAt (svp.getLayerIndexForDepth ping.transducerDepth) = ping.transducerDepth
      ∧ e = RTError.sameDepthGradient ping.transducerDepth
          (svp.depthAt (svp.getLayerIndexForDepth ping.transducerDepth)) :=
  (rayTrace_error_iff v ping svp e).mp h

lemma rayTraceE : rayTrace vA pingE svpE = Except.error (RTError.sameDepthGradient 0 0) := by
  apply (rayTrace_error_iff vA pingE svpE _).mpr
  refine ⟨?_, ?_, ?_⟩
  · rw [cutoffE]
    norm_num [svpE, SoundVelocityProfile.getSize]
  · rw [cutoffE]
    norm_num [svpE, pingE, SoundVelocityProfile.depthAt, List.getD]
  · rw [cutoffE]
    norm_num [svpE, pingE, SoundVelocityProfile.depthAt, List.getD]

/-- C6 witness: the only error the trace produces in scenario E is indeed the
duplicate-depth one, at a transducer sitting exactly on the sample depth. -/
theorem c6_no_computation_error_witness :
    svpE.getLayerIndexForDepth pingE.transducerDepth < svpE.getSize
      ∧ svpE.depthAt (svpE.getLayerIndexForDepth pingE.transducerDepth) = pingE.transducerDepth
      ∧ RTError.sameDepthGradient 0 0 = RTError.sameDepthGradient pingE.transducerDepth
          (svpE.depthAt (svpE.getLayerIndexForDepth pingE.transducerDepth)) :=
  c6_no_computation_error vA pingE svpE _ rayTraceE


/-! ### Helpers for the vertical-ray (zero Snell constant) case -/

lemma lvp_beta0 (v : ℝ × ℝ × ℝ) : (launchVectorParameters v).beta0 = Real.arcsin v.2.2 := rfl

lemma lvp_zero_horizontal (v : ℝ × ℝ × ℝ) (h1 : v.1 = 0) (h2 : v.2.1 = 0) :
    (launchVectorParameters v).sinAz = 0 ∧ (launchVectorParameters v).cosAz = 0 := by
  unfold launchVectorParameters
  dsimp only
  rw [h1, h2]
  norm_num

lemma lvp_pos_horizontal (v : ℝ × ℝ × ℝ) (h : 0 < Real.sqrt (v.1 ^ 2 + v.2.1 ^ 2)) :
    (launchVectorParameters v).sinAz = v.1 / Real.sqrt (v.1 ^ 2 + v.2.1 ^ 2)
      ∧ (launchVectorParameters v).cosAz = v.2.1 / Real.sqrt (v.1 ^ 2 + v.2.1 ^ 2) := by
  unfold launchVectorParameters
  dsimp only
  rw [if_pos h, if_pos h]
  exact ⟨rfl, rfl⟩

lemma transducer_deltaR_zero (ping : Ping) (svp : SoundVelocityProfile) (cutoff : ℕ)
    (s : RayStep) (htr : transducerLayerStep ping svp 0 cutoff = Except.ok s) :
    s.deltaR = 0 := by
  unfold transducerLayerStep soundSpeedGradient at htr
  by_cases hd : svp.depthAt cutoff = ping.transducerDepth
  · rw [if_pos hd] at htr
    simp [Except.map] at htr
  · rw [if_neg hd] at htr
    simp only [Except.map, Except.ok.injEq] at htr
    rw [← htr]
    by_cases hg : |(svp.speedAt cutoff - ping.surfaceSoundSpeed)
        / (svp.depthAt cutoff - ping.transducerDepth)| < gradientEpsilon
    · rw [if_pos hg]
      simp [constantCelerityRayTracing]
    · rw [if_neg hg]
      simp [constantGradientRayTracing]

lemma planarFirstState_cumX_zero (ping : Ping) (svp : SoundVelocityProfile) (t : ℝ)
    (cutoff : ℕ) (r₀ : List (ℝ × ℝ)) (t₀ : List ℝ) (ps : PlanarState)
    (h : planarFirstState ping svp 0 t cutoff r₀ t₀ = Except.ok ps) :
    ps.walk.cumX = 0 := by
  unfold planarFirstState at h
  by_cases hcut : cutoff < svp.getSize
  · rcases htr : transducerLayerStep ping svp 0 cutoff with e | s
    · rw [if_pos hcut, htr] at h
      simp [Except.map] at h
    · have hdr : s.deltaR = 0 := transducer_deltaR_zero ping svp cutoff s htr
      rw [if_pos hcut, htr] at h
      simp only [Except.map, Except.ok.injEq] at h
      by_cases hcm : 0 + s.deltaTravelTime ≤ t
      · rw [if_pos hcm] at h
        rw [← h]
        dsimp only
        rw [hdr, add_zero]
      · rw [if_neg hcm] at h
        rw [← h]
  · rw [if_neg hcut] at h
    simp only [Except.ok.injEq] at h
    rw [← h]

/-- A zero Snell constant (vertical-only ray) accumulates no range in the
diagnostic trace. -/
lemma planar_range_zero (v : ℝ × ℝ × ℝ) (ping : Ping) (svp : SoundVelocityProfile)
    (r₀ : List (ℝ × ℝ)) (t₀ : List ℝ) (pr : (ℝ × ℝ) × List (ℝ × ℝ) × List ℝ)
    (hsnell : Real.cos (launchVectorParameters v).beta0 / ping.surfaceSoundSpeed = 0)
    (hp : planarRayTrace v ping svp r₀ t₀ = Except.ok pr) :
    pr.1.1 = 0 := by
  obtain ⟨ps, hfs, hout⟩ := planarRayTrace_ok_elim v ping svp r₀ t₀ pr hp
  rw [hsnell] at hfs hout
  have hcum : ps.walk.cumX = 0 := planarFirstState_cumX_zero _ _ _ _ _ _ _ hfs
  rw [hout]
  unfold planarFinalize
  dsimp only
  rw [planarLoop_walk, rayTraceLoop_cumX_zero, hcum, lastLayerPropagation_deltaR_zero,
    add_zero]

/-- C2 (amended): for a unit navigation-frame launch vector (which actual
rotation matrices guarantee), the Euclidean norm of the two horizontal
components of the 3D result equals the ABSOLUTE VALUE of the range component
of the 2D aggregate, and the vertical components are identical.  The absolute
value cannot be dropped: non-physical inputs (e.g. a negative surface sound
speed) make the range component negative while the norm stays nonnegative (see
the counterexample). -/
theorem c2_projection_consistency (v : ℝ × ℝ × ℝ) (ping : Ping) (svp : SoundVelocityProfile)
    (r₀ : List (ℝ × ℝ)) (t₀ : List ℝ) (pr : (ℝ × ℝ) × List (ℝ × ℝ) × List ℝ) (r : ℝ × ℝ × ℝ)
    (hunit : v.1 ^ 2 + v.2.1 ^ 2 + v.2.2 ^ 2 = 1)
    (hp : planarRayTrace v ping svp r₀ t₀ = Except.ok pr)
    (hr : rayTrace v ping svp = Except.ok r) :
    Real.sqrt (r.1 ^ 2 + r.2.1 ^ 2) = |pr.1.1| ∧ r.2.2 = pr.1.2 := by
  have hproj := rayTrace_of_planar v ping svp r₀ t₀ pr hp
  rw [hr] at hproj
  injection hproj with hre
  subst hre
  refine ⟨?_, rfl⟩
  by_cases h0 : v.1 ^ 2 + v.2.1 ^ 2 = 0
  · have hx1 : v.1 = 0 := by
      have h1 : v.1 ^ 2 = 0 := by nlinarith [sq_nonneg v.1, sq_nonneg v.2.1]
      exact (pow_eq_zero_iff (by norm_num : (2:ℕ) ≠ 0)).mp h1
    have hx2 : v.2.1 = 0 := by
      have h1 : v.2.1 ^ 2 = 0 := by nlinarith [sq_nonneg v.1, sq_nonneg v.2.1]
      exact (pow_eq_zero_iff (by norm_num : (2:ℕ) ≠ 0)).mp h1
    obtain ⟨hsz, hcz⟩ := lvp_zero_horizontal v hx1 hx2
    have hz2 : v.2.2 ^ 2 = 1 := by nlinarith
    have hcos : Real.cos (launchVectorParameters v).beta0 = 0 := by
      rw [lvp_beta0]
      have hfac : (v.2.2 - 1) * (v.2.2 + 1) = 0 := by nlinarith
      rcases mul_eq_zero.mp hfac with hz | hz
      · rw [show v.2.2 = 1 by linarith, Real.arcsin_one, Real.cos_pi_div_two]
      · rw [show v.2.2 = -1 by linarith, show (-1 : ℝ) = -(1 : ℝ) by norm_num,
          Real.arcsin_neg, Real.arcsin_one, Real.cos_neg, Real.cos_pi_div_two]
    have hpr0 : pr.1.1 = 0 :=
      planar_range_zero v ping svp r₀ t₀ pr (by rw [hcos, zero_div]) hp
    dsimp only
    rw [hsz, hcz, hpr0]
    norm_num
  · have hpos : 0 < v.1 ^ 2 + v.2.1 ^ 2 :=
      lt_of_le_of_ne (by positivity) (Ne.symm h0)
    have hvn : 0 < Real.sqrt (v.1 ^ 2 + v.2.1 ^ 2) := Real.sqrt_pos.mpr hpos
    have hvn2 : Real.sqrt (v.1 ^ 2 + v.2.1 ^ 2) ^ 2 = v.1 ^ 2 + v.2.1 ^ 2 :=
      Real.sq_sqrt hpos.le
    obtain ⟨hsz, hcz⟩ := lvp_pos_horizontal v hvn
    dsimp only
    rw [hsz, hcz]
    have key : (pr.1.1 * (v.1 / Real.sqrt (v.1 ^ 2 + v.2.1 ^ 2))) ^ 2
        + (pr.1.1 * (v.2.1 / Real.sqrt (v.1 ^ 2 + v.2.1 ^ 2))) ^ 2 = pr.1.1 ^ 2 := by
      field_simp
      ring
    rw [key, Real.sqrt_sq_eq_abs]

/-- C2 witness: in scenario A the norm of the horizontal 3D components equals
the absolute value of the planar range, and the verticals agree. -/
theorem c2_projection_consistency_witness :
    Real.sqrt (((0 : ℝ), (3:ℝ)/5, (4:ℝ)/5).1 ^ 2 + ((0 : ℝ), (3:ℝ)/5, (4:ℝ)/5).2.1 ^ 2)
        = |(((3:ℝ)/5, (4:ℝ)/5), [((3:ℝ)/5, (4:ℝ)/5)], [(1 : ℝ)]).1.1|
      ∧ ((0 : ℝ), (3:ℝ)/5, (4:ℝ)/5).2.2 = (((3:ℝ)/5, (4:ℝ)/5), [((3:ℝ)/5, (4:ℝ)/5)], [(1 : ℝ)]).1.2 :=
  c2_projection_consistency vA pingA svpA [] [] _ _ (by norm_num [vA]) planarA rayTraceA

/-! ### Concrete scenario C: as scenario A but with surface sound speed -1:
the planar range component is negative. -/

def pingC : Ping := ⟨2, -1, 5⟩

lemma planarC : planarRayTrace vA pingC svpA [] [] =
    Except.ok ((-(3/5), -(4/5)), [(-(3/5), -(4/5))], [(1 : ℝ)]) := by
  have hsin : Real.sqrt (1 - ((3:ℝ)/5 * 1) ^ 2) = 4/5 := sqrt_eval (by norm_num) (by norm_num)
  have hsinb : Real.sqrt (1 - (9:ℝ)/25) = 4/5 := sqrt_eval (by norm_num) (by norm_num)
  have hsinc : Real.sqrt ((16:ℝ)/25) = 4/5 := sqrt_eval (by norm_num) (by norm_num)
  have hsz : SoundVelocityProfile.getSize ⟨[0], [1]⟩ = 1 := rfl
  have hexit : planarLoop ⟨[0], [1]⟩ (-(3/5)) 1 ⟨⟨0, 0, 0, 0, 1⟩, [], []⟩ =
      ⟨⟨0, 0, 0, 0, 1⟩, [], []⟩ := by
    apply planarLoop_exit
    simp [SoundVelocityProfile.getSize]
  simp only [planarRayTrace, lvpA, cosArcsin45, pingC, svpA]
  norm_num [planarFirstState, planarFinalize, Except.map, hexit, lastLayerPropagation, hsz,
    cutoffA, hsin, hsinb, hsinc]

lemma rayTraceC : rayTrace vA pingC svpA = Except.ok (0, -(3/5), -(4/5)) := by
  have hsin : Real.sqrt (1 - ((3:ℝ)/5 * 1) ^ 2) = 4/5 := sqrt_eval (by norm_num) (by norm_num)
  have hsinb : Real.sqrt (1 - (9:ℝ)/25) = 4/5 := sqrt_eval (by norm_num) (by norm_num)
  have hsinc : Real.sqrt ((16:ℝ)/25) = 4/5 := sqrt_eval (by norm_num) (by norm_num)
  have hsz : SoundVelocityProfile.getSize ⟨[0], [1]⟩ = 1 := rfl
  have hexit : rayTraceLoop ⟨[0], [1]⟩ (-(3/5)) 1 ⟨0, 0, 0, 0, 1⟩ = ⟨0, 0, 0, 0, 1⟩ := by
    apply rayTraceLoop_exit
    simp [SoundVelocityProfile.getSize]
  simp only [rayTrace, lvpA, cosArcsin45, pingC, svpA]
  norm_num [rayTraceFirstState, rayTraceFinalize, Except.map, hexit, lastLayerPropagation, hsz,
    cutoffA, hsin, hsinb, hsinc]

/-- C2 counterexample: with a (non-physical) negative surface sound speed the
planar range component is -3/5 while the Euclidean norm of the 3D horizontal
components is +3/5: the norm does not equal the range component as claimed. -/
theorem c2_counterexample :
    planarRayTrace vA pingC svpA [] [] =
        Except.ok ((-(3/5), -(4/5)), [(-(3/5), -(4/5))], [(1 : ℝ)])
      ∧ rayTrace vA pingC svpA = Except.ok (0, -(3/5), -(4/5))
      ∧ Real.sqrt ((0 : ℝ) ^ 2 + (-(3/5)) ^ 2) ≠ -(3/5) := by
  refine ⟨planarC, rayTraceC, ?_⟩
  rw [sqrt_eval (b := 3/5) (by norm_num) (by norm_num)]
  norm_num


/-! ### Uniform-profile straight-line machinery (C7) -/

lemma celerity_ratio (z0 z1 c p : ℝ) (hc : c ≠ 0)
    (hs : Real.sqrt (1 - (p * c) ^ 2) ≠ 0) :
    (constantCelerityRayTracing z0 z1 c p).deltaZ * (p * c)
      = (constantCelerityRayTracing z0 z1 c p).deltaR * Real.sqrt (1 - (p * c) ^ 2) := by
  unfold constantCelerityRayTracing
  dsimp only
  field_simp
  ring

lemma lastLayer_ratio (lt c p : ℝ) :
    (lastLayerPropagation lt c p).1 * (p * c)
      = (lastLayerPropagation lt c p).2 * Real.sqrt (1 - (p * c) ^ 2) := by
  unfold lastLayerPropagation
  dsimp only
  ring

lemma layerStep_uniform (svp : SoundVelocityProfile) (c p : ℝ) (i : ℕ)
    (hi : i + 1 < svp.getSize) (huni : ∀ j, j < svp.getSize → svp.speedAt j = c) :
    layerStep svp p i = constantCelerityRayTracing (svp.depthAt i) (svp.depthAt (i + 1)) c p := by
  have h1 : svp.speedAt i = c := huni i (by omega)
  have h2 : svp.speedAt (i + 1) = c := huni (i + 1) hi
  have hg : svp.gradientAt i = 0 := by
    unfold SoundVelocityProfile.gradientAt
    rw [h1, h2, sub_self, zero_div]
  unfold layerStep
  rw [hg, h1, if_pos (by norm_num [gradientEpsilon])]

lemma rayTraceLoop_ratio_aux (svp : SoundVelocityProfile) (c p t : ℝ) (hc : c ≠ 0)
    (hs : Real.sqrt (1 - (p * c) ^ 2) ≠ 0)
    (huni : ∀ j, j < svp.getSize → svp.speedAt j = c) :
    ∀ n (st : WalkState), svp.getSize - 1 - st.idx ≤ n →
      st.cumZ * (p * c) = st.cumX * Real.sqrt (1 - (p * c) ^ 2) →
      (rayTraceLoop svp p t st).cumZ * (p * c)
        = (rayTraceLoop svp p t st).cumX * Real.sqrt (1 - (p * c) ^ 2) := by
  intro n
  induction n with
  | zero =>
    intro st h hinv
    rw [rayTraceLoop_exit _ _ _ _ (fun hg => absurd hg.2 (by omega))]
    exact hinv
  | succ n ih =>
    intro st h hinv
    by_cases hg : st.cumTime + st.curTime ≤ t ∧ st.idx < svp.getSize - 1
    · by_cases hcm : st.cumTime + (layerStep svp p st.idx).deltaTravelTime ≤ t
      · rw [rayTraceLoop_commit _ _ _ _ hg hcm]
        apply ih _ (by show svp.getSize - 1 - (st.idx + 1) ≤ n; omega)
        dsimp only
        rw [layerStep_uniform svp c p st.idx (by omega) huni]
        have hcel := celerity_ratio (svp.depthAt st.idx) (svp.depthAt (st.idx + 1)) c p hc hs
        linear_combination hinv + hcel
      · rw [rayTraceLoop_break _ _ _ _ hg hcm]
        exact hinv
    · rw [rayTraceLoop_exit _ _ _ _ hg]
      exact hinv

lemma planarFirstState_idx (ping : Ping) (svp : SoundVelocityProfile) (p t : ℝ) (cutoff : ℕ)
    (r₀ : List (ℝ × ℝ)) (t₀ : List ℝ) (ps : PlanarState)
    (h : planarFirstState ping svp p t cutoff r₀ t₀ = Except.ok ps) :
    ps.walk.idx = cutoff := by
  unfold planarFirstState at h
  by_cases hcut : cutoff < svp.getSize
  · rcases htr : transducerLayerStep ping svp p cutoff with e | s
    · rw [if_pos hcut, htr] at h
      simp [Except.map] at h
    · rw [if_pos hcut, htr] at h
      simp only [Except.map, Except.ok.injEq] at h
      by_cases hcm : 0 + s.deltaTravelTime ≤ t
      · rw [if_pos hcm] at h
        rw [← h]
      · rw [if_neg hcm] at h
        rw [← h]
  · rw [if_neg hcut] at h
    simp only [Except.ok.injEq] at h
    rw [← h]

/-- The transducer-layer step of a uniform-speed profile is the
constant-celerity step at the surface sound speed (the transducer gradient is
zero). -/
lemma transducerLayerStep_uniform (ping : Ping) (svp : SoundVelocityProfile) (p : ℝ)
    (cutoff : ℕ) (s : RayStep) (hsp : svp.speedAt cutoff = ping.surfaceSoundSpeed)
    (htr : transducerLayerStep ping svp p cutoff = Except.ok s) :
    s = constantCelerityRayTracing ping.transducerDepth (svp.depthAt cutoff)
      ping.surfaceSoundSpeed p := by
  unfold transducerLayerStep soundSpeedGradient at htr
  by_cases hd : svp.depthAt cutoff = ping.transducerDepth
  · rw [if_pos hd] at htr
    simp [Except.map] at htr
  · rw [if_neg hd] at htr
    simp only [Except.map, Except.ok.injEq] at htr
    rw [← htr, hsp, sub_self, zero_div, if_pos (by norm_num [gradientEpsilon])]

/-- C7 (amended): for a profile with uniform sound speed equal to the surface
sound speed, the whole trace is straight-line: the aggregate satisfies
ΔZ = ΔR · tan(β0) exactly (equivalently ΔZ/ΔR = tan(grazing angle), the
grazing angle measured from the horizontal; the spec claim ΔR/ΔZ = tan(β0)
holds only at 45°, see the counterexample).  Stated for a downward,
non-vertical ray (0 < z-component < 1) and a nonzero surface speed. -/
theorem c7_uniform_profile_ratio (v : ℝ × ℝ × ℝ) (ping : Ping) (svp : SoundVelocityProfile)
    (r₀ : List (ℝ × ℝ)) (t₀ : List ℝ) (pr : (ℝ × ℝ) × List (ℝ × ℝ) × List ℝ)
    (hz0 : 0 < v.2.2) (hz1 : v.2.2 < 1)
    (hcss : ping.surfaceSoundSpeed ≠ 0)
    (huni : ∀ j, j < svp.getSize → svp.speedAt j = ping.surfaceSoundSpeed)
    (hp : planarRayTrace v ping svp r₀ t₀ = Except.ok pr) :
    pr.1.2 = pr.1.1 * Real.tan (launchVectorParameters v).beta0 := by
  have h1z : (0:ℝ) ≤ 1 - v.2.2 ^ 2 := by nlinarith
  have hcos : Real.cos (launchVectorParameters v).beta0 = Real.sqrt (1 - v.2.2 ^ 2) := by
    rw [lvp_beta0, Real.cos_arcsin]
  have hpc : Real.cos (launchVectorParameters v).beta0 / ping.surfaceSoundSpeed
      * ping.surfaceSoundSpeed = Real.sqrt (1 - v.2.2 ^ 2) := by
    rw [hcos]
    field_simp
  have hcosBpos : 0 < Real.sqrt (1 - v.2.2 ^ 2) := Real.sqrt_pos.mpr (by nlinarith)
  have hsinB : Real.sqrt (1 - Real.sqrt (1 - v.2.2 ^ 2) ^ 2) = v.2.2 := by
    rw [Real.sq_sqrt h1z, show (1 : ℝ) - (1 - v.2.2 ^ 2) = v.2.2 ^ 2 by ring,
      Real.sqrt_sq hz0.le]
  have hsnz : Real.sqrt (1 - (Real.cos (launchVectorParameters v).beta0
      / ping.surfaceSoundSpeed * ping.surfaceSoundSpeed) ^ 2) ≠ 0 := by
    rw [hpc, hsinB]
    exact ne_of_gt hz0
  obtain ⟨ps, hfs, hout⟩ := planarRayTrace_ok_elim v ping svp r₀ t₀ pr hp
  have hidx : ps.walk.idx = svp.getLayerIndexForDepth ping.transducerDepth :=
    planarFirstState_idx _ _ _ _ _ _ _ _ hfs
  -- base invariant after the transducer-layer block
  have hbase : ps.walk.cumZ * (Real.cos (launchVectorParameters v).beta0
        / ping.surfaceSoundSpeed * ping.surfaceSoundSpeed)
      = ps.walk.cumX * Real.sqrt (1 - (Real.cos (launchVectorParameters v).beta0
        / ping.surfaceSoundSpeed * ping.surfaceSoundSpeed) ^ 2) := by
    unfold planarFirstState at hfs
    by_cases hcut : svp.getLayerIndexForDepth ping.transducerDepth < svp.getSize
    · rcases htr : transducerLayerStep ping svp
          (Real.cos (launchVectorParameters v).beta0 / ping.surfaceSoundSpeed)
          (svp.getLayerIndexForDepth ping.transducerDepth) with e | st
      · rw [if_pos hcut, htr] at hfs
        simp [Except.map] at hfs
      · have hst := transducerLayerStep_uniform ping svp
          (Real.cos (launchVectorParameters v).beta0 / ping.surfaceSoundSpeed)
          (svp.getLayerIndexForDepth ping.transducerDepth) st (huni _ hcut) htr
        have hcel := celerity_ratio ping.transducerDepth
          (svp.depthAt (svp.getLayerIndexForDepth ping.transducerDepth))
          ping.surfaceSoundSpeed
          (Real.cos (launchVectorParameters v).beta0 / ping.surfaceSoundSpeed) hcss hsnz
        rw [← hst] at hcel
        rw [if_pos hcut, htr] at hfs
        simp only [Except.map, Except.ok.injEq] at hfs
        by_cases hcm : 0 + st.deltaTravelTime ≤ ping.twoWayTravelTime / 2
        · rw [if_pos hcm] at hfs
          rw [← hfs]
          dsimp only
          linear_combination hcel
        · rw [if_neg hcm] at hfs
          rw [← hfs]
          dsimp only
          ring
    · rw [if_neg hcut] at hfs
      simp only [Except.ok.injEq] at hfs
      rw [← hfs]
      dsimp only
      ring
  have hwalk := planarLoop_walk svp
    (Real.cos (launchVectorParameters v).beta0 / ping.surfaceSoundSpeed)
    (ping.twoWayTravelTime / 2) ps
  have hinv := rayTraceLoop_ratio_aux svp ping.surfaceSoundSpeed
    (Real.cos (launchVectorParameters v).beta0 / ping.surfaceSoundSpeed)
    (ping.twoWayTravelTime / 2) hcss hsnz huni _ ps.walk le_rfl hbase
  have hclast : (if svp.getLayerIndexForDepth ping.transducerDepth < svp.getSize then
      svp.speedAt (planarLoop svp
        (Real.cos (launchVectorParameters v).beta0 / ping.surfaceSoundSpeed)
        (ping.twoWayTravelTime / 2) ps).walk.idx
      else ping.surfaceSoundSpeed) = ping.surfaceSoundSpeed := by
    by_cases hcut : svp.getLayerIndexForDepth ping.transducerDepth < svp.getSize
    · rw [if_pos hcut]
      apply huni
      rw [hwalk]
      have hb := rayTraceLoop_idx svp
        (Real.cos (launchVectorParameters v).beta0 / ping.surfaceSoundSpeed)
        (ping.twoWayTravelTime / 2) ps.walk
      rw [hidx] at hb
      omega
    · rw [if_neg hcut]
  have hlast := lastLayer_ratio
    (ping.twoWayTravelTime / 2 - (planarLoop svp
      (Real.cos (launchVectorParameters v).beta0 / ping.surfaceSoundSpeed)
      (ping.twoWayTravelTime / 2) ps).walk.cumTime)
    ping.surfaceSoundSpeed
    (Real.cos (launchVectorParameters v).beta0 / ping.surfaceSoundSpeed)
  have htan : Real.tan (launchVectorParameters v).beta0
      = v.2.2 / Real.sqrt (1 - v.2.2 ^ 2) := by
    rw [lvp_beta0, Real.tan_arcsin]
  rw [hout]
  unfold planarFinalize
  dsimp only
  rw [hclast, htan]
  have hZX : ((planarLoop svp
        (Real.cos (launchVectorParameters v).beta0 / ping.surfaceSoundSpeed)
        (ping.twoWayTravelTime / 2) ps).walk.cumZ
        + (lastLayerPropagation (ping.twoWayTravelTime / 2 - (planarLoop svp
            (Real.cos (launchVectorParameters v).beta0 / ping.surfaceSoundSpeed)
            (ping.twoWayTravelTime / 2) ps).walk.cumTime) ping.surfaceSoundSpeed
            (Real.cos (launchVectorParameters v).beta0 / ping.surfaceSoundSpeed)).1)
        * Real.sqrt (1 - v.2.2 ^ 2)
      = ((planarLoop svp
        (Real.cos (launchVectorParameters v).beta0 / ping.surfaceSoundSpeed)
        (ping.twoWayTravelTime / 2) ps).walk.cumX
        + (lastLayerPropagation (ping.twoWayTravelTime / 2 - (planarLoop svp
            (Real.cos (launchVectorParameters v).beta0 / ping.surfaceSoundSpeed)
            (ping.twoWayTravelTime / 2) ps).walk.cumTime) ping.surfaceSoundSpeed
            (Real.cos (launchVectorParameters v).beta0 / ping.surfaceSoundSpeed)).2)
        * v.2.2 := by
    rw [hwalk]
    have h1 := hinv
    have h2 := hlast
    rw [hwalk] at h2
    rw [hpc, hsinB] at h1 h2
    linear_combination h1 + h2
  have hcne : Real.sqrt (1 - v.2.2 ^ 2) ≠ 0 := ne_of_gt hcosBpos
  rw [← mul_div_assoc, eq_div_iff hcne]
  linear_combination hZX


/-- C7 witness: in scenario A (uniform speed 1 = surface speed, z = 4/5) the
aggregate satisfies depth = range · tan(β0): 4/5 = 3/5 · (4/3). -/
theorem c7_uniform_profile_ratio_witness :
    (((3:ℝ)/5, (4:ℝ)/5), [((3:ℝ)/5, (4:ℝ)/5)], [(1 : ℝ)]).1.2
      = (((3:ℝ)/5, (4:ℝ)/5), [((3:ℝ)/5, (4:ℝ)/5)], [(1 : ℝ)]).1.1
        * Real.tan (launchVectorParameters vA).beta0 :=
  c7_uniform_profile_ratio vA pingA svpA [] [] _ (by norm_num [vA]) (by norm_num [vA])
    (by norm_num [pingA])
    (by
      intro j hj
      have hj0 : j = 0 := by
        simpa [svpA, SoundVelocityProfile.getSize, Nat.lt_one_iff] using hj
      subst hj0
      norm_num [svpA, pingA, SoundVelocityProfile.speedAt, List.getD])
    planarA

/-- C7 counterexample: in scenario A (uniform-speed profile, surface speed
equal to it) the completed trace's aggregate is (ΔR, ΔZ) = (3/5, 4/5), and
ΔR/ΔZ = 3/4 while tan(grazing angle β0) = tan(arcsin(4/5)) = 4/3: the claimed
identity ΔR/ΔZ = tan(β0) is false (it is ΔZ/ΔR that equals tan(β0)). -/
theorem c7_counterexample :
    planarRayTrace vA pingA svpA [] [] = Except.ok ((3/5, 4/5), [(3/5, 4/5)], [(1 : ℝ)])
      ∧ (3:ℝ)/5 / ((4:ℝ)/5) ≠ Real.tan (launchVectorParameters vA).beta0 := by
  have h35 : Real.sqrt (1 - ((4:ℝ)/5) ^ 2) = 3/5 := sqrt_eval (by norm_num) (by norm_num)
  have h9 : Real.sqrt (9:ℝ) = 3 := sqrt_eval (by norm_num) (by norm_num)
  have h25 : Real.sqrt (25:ℝ) = 5 := sqrt_eval (by norm_num) (by norm_num)
  refine ⟨planarA, ?_⟩
  rw [lvp_beta0]
  norm_num [vA, Real.tan_arcsin, h35, h9, h25]

end
